import Mathlib

/-!
# datelib: calendar arithmetic (`datecal.h`) and date formatting (`dateformat.h`)

A shallow embedding of the library and theorems about it.

Conventions of the embedding:

* C `int` / `long long` values are mathematical integers (`Int`).  Signed overflow is
  undefined behaviour in C, so every statement below is about inputs for which the C
  arithmetic does not overflow; on those inputs the C operators and the `Int` operators
  agree.  The one narrowing conversion a statement depends on (`diff.weeks = time` in
  `difference`) is modelled by `to_int`; `size_t` subtraction wraps at 64 bits
  (`size_sub`) and the conversion to `unsigned int` wraps at 32 bits (`to_unsigned`).
* C `/` and `%` truncate toward zero: they are `Int.tdiv` and `Int.tmod`.
* `while` and `for` loops are functions that recurse on a fuel argument and mirror the
  loop state; the caller passes a fuel that the loop cannot use up.
* A `date_t *` argument that is updated in place becomes a function returning the new
  `date_t`; a `char *` buffer becomes the sequence of cells written (`Cells`).
* C strings are lists of characters without the terminating NUL.
-/

namespace Datelib

/-! ## Integer helpers (`datecal.h` lines 12-38) -/

/-- Modulo function `_mod` of the source: `a % b`, shifted by `b` when `a` is negative and
the truncated remainder is not zero. -/
def _mod (a b : Int) : Int :=
  if a ≥ 0 ∨ a.tmod b = 0 then a.tmod b else a.tmod b + b

/-- Integer division `_div` of the source: `a / b`, minus one when `a` is negative and
the truncated remainder is not zero. -/
def _div (a b : Int) : Int :=
  if a ≥ 0 ∨ a.tmod b = 0 then a.tdiv b else a.tdiv b - 1

/-- The `long long` version `_modl` of `_mod`. -/
def _modl (a b : Int) : Int :=
  if a ≥ 0 ∨ a.tmod b = 0 then a.tmod b else a.tmod b + b

/-- The `long long` version `_divl` of `_div`. -/
def _divl (a b : Int) : Int :=
  if a ≥ 0 ∨ a.tmod b = 0 then a.tdiv b else a.tdiv b - 1

/-- Conversion of a `long long` to `int` (two's complement wrap to 32 bits), as performed
by an assignment such as `diff.weeks = time`. -/
def to_int (x : Int) : Int :=
  (x + 2147483648) % 4294967296 - 2147483648

/-! ## Data model (`datecal.h` lines 40-68) -/

/-- The date/time struct `date_t`. -/
structure date_t where
  year : Int
  month : Int
  day : Int
  hour : Int
  minute : Int
  second : Int
  usecond : Int
  weekday : Int
  tz_offset : Int
  deriving DecidableEq, Repr

/-- The time difference struct `timediff_t`. -/
structure timediff_t where
  weeks : Int
  days : Int
  hours : Int
  minutes : Int
  seconds : Int
  useconds : Int
  deriving DecidableEq, Repr

/-- Beginning of the UNIX epoch, `{1970, 1, 1, 0, 0, 0, 0, 3, 0}`. -/
def unix_epoch : date_t :=
  { year := 1970, month := 1, day := 1, hour := 0, minute := 0, second := 0,
    usecond := 0, weekday := 3, tz_offset := 0 }

/-- The rows of the table `month_lengths[2][12]`: normal year, then leap year. -/
def month_lengths_row (leap : Bool) : List Int :=
  if leap then [31, 29, 31, 30, 31, 30, 31, 31, 30, 31, 30, 31]
  else [31, 28, 31, 30, 31, 30, 31, 31, 30, 31, 30, 31]

/-- The table access `month_lengths[leap][i]`.  An index outside `0..11` is an
out-of-bounds read in C; the embedding returns `0` there and no statement below relies
on that value. -/
def month_lengths (leap : Bool) (i : Int) : Int :=
  if 0 ≤ i then (month_lengths_row leap).getD i.toNat 0 else 0

/-! ## Calendar primitives (`datecal.h` lines 380-413) -/

/-- The leap-year predicate `is_leap_year`, with the truncating `%` of C. -/
def is_leap_year (year : Int) : Bool :=
  if year.tmod 4 ≠ 0 then false
  else if year.tmod 100 ≠ 0 then true
  else if year.tmod 400 ≠ 0 then false
  else true

/-- Number of days in a year, `year_length`. -/
def year_length (year : Int) : Int :=
  365 + (if is_leap_year year then 1 else 0)

/-- The function `leap_years_before`: `year--; return year/4 - year/100 + year/400;`. -/
def leap_years_before (year : Int) : Int :=
  let year := year - 1
  year.tdiv 4 - year.tdiv 100 + year.tdiv 400

/-- The function `leap_years_between`, for years in `[start, end)`. -/
def leap_years_between (start stop : Int) : Int :=
  leap_years_before stop - leap_years_before start

/-! ## Instant codec (`datecal.h` lines 319-378) -/

/-- The loop `while (date.month > 1) { date.month--; days += month_lengths[..][date.month - 1]; }`
shared by `date_to_usec_since_zero`, `date_to_time` (with bound `unix_epoch.month`) and
`day_of_year`.  State: the month and the running day count. -/
def months_loop (year : Int) : Nat → Int → Int → Int
  | 0, _, days => days
  | fuel + 1, month, days =>
    if month > 1 then
      months_loop year fuel (month - 1)
        (days + month_lengths (is_leap_year year) (month - 1 - 1))
    else days

/-- Number of microseconds since 0000-01-01 00:00 given a `date_t`
(`date_to_usec_since_zero`). -/
def date_to_usec_since_zero (date : date_t) : Int :=
  let time := ((date.hour * 60 + date.minute - date.tz_offset) * 60 + date.second) * 1000000
    + date.usecond
  let days_since_zero := date.day - 1
  let days_since_zero := months_loop date.year date.month.toNat date.month days_since_zero
  let days_since_zero := days_since_zero
    + (date.year * 365 + leap_years_before (date.year + 1))
  time + days_since_zero * 86400000000

/-- Length in days of one year cycle, `CYCLE_1`. -/
def CYCLE_1 : Int := 365
/-- Length in days of a four year cycle, `CYCLE_4`. -/
def CYCLE_4 : Int := CYCLE_1 * 4 + 1
/-- Length in days of a hundred year cycle, `CYCLE_100`. -/
def CYCLE_100 : Int := CYCLE_4 * 25 - 1
/-- Length in days of a four hundred year cycle, `CYCLE_400`. -/
def CYCLE_400 : Int := CYCLE_100 * 4 + 1

/-- The loop
`while (days >= month_lengths[leap][month - 1]) { days -= month_lengths[leap][month - 1]; month++; }`
of `usec_since_zero_to_date` and `time_to_date`.  State: the remaining days and the month;
the result is the state at loop exit (or when the fuel is used up). -/
def month_walk (year : Int) : Nat → Int → Int → Int × Int
  | 0, days, month => (days, month)
  | fuel + 1, days, month =>
    if days ≥ month_lengths (is_leap_year year) (month - 1) then
      month_walk year fuel (days - month_lengths (is_leap_year year) (month - 1)) (month + 1)
    else (days, month)

/-- Create a `date_t` given a number of microseconds since 0000-01-01 00:00 and an offset
(`usec_since_zero_to_date`).  The month loop starts from a day count below 365, so it
leaves after at most eleven rounds: the fuel 12 is never used up. -/
def usec_since_zero_to_date (usec tz_offset : Int) : date_t :=
  let usec := usec + tz_offset * 60000000
  let time_of_day := _modl usec 86400000000
  let days_since_zero := _divl usec 86400000000
  let weekday := _modl (days_since_zero + 5) 7
  let usecond := time_of_day.tmod 1000000
  let second := (time_of_day.tdiv 1000000).tmod 60
  let minute := (time_of_day.tdiv 60000000).tmod 60
  let hour := time_of_day.tdiv 3600000000
  let year : Int := 0
  let year := year + 400 * _divl days_since_zero CYCLE_400
  let days_since_zero := _modl days_since_zero CYCLE_400
  let year := year + 100 * _divl days_since_zero CYCLE_100
  let days_since_zero := _modl days_since_zero CYCLE_100
  let year := year + 4 * _divl days_since_zero CYCLE_4
  let days_since_zero := _modl days_since_zero CYCLE_4
  let year := year + 1 * _divl days_since_zero CYCLE_1
  let days_since_zero := _modl days_since_zero CYCLE_1
  let walk := month_walk year 12 days_since_zero 1
  { year := year, month := walk.2, day := walk.1 + (if year < 0 then 0 else 1),
    hour := hour, minute := minute, second := second, usecond := usecond,
    weekday := weekday, tz_offset := tz_offset }

/-! ## Normalization and construction (`datecal.h` lines 164-182) -/

/-- Convert a date to a different timezone (`convert_to_timezone`); returns the updated
`*date`. -/
def convert_to_timezone (date : date_t) (tz_offset : Int) : date_t :=
  let usec := date_to_usec_since_zero date
  usec_since_zero_to_date usec tz_offset

/-- Create a date object (`make_date`). -/
def make_date (year month day hour minute second usecond tz_offset : Int) : date_t :=
  let hour := if hour = 24 then 0 else hour
  let date : date_t :=
    { year := year, month := month, day := day, hour := hour, minute := minute,
      second := second, usecond := usecond, weekday := 0, tz_offset := tz_offset }
  convert_to_timezone date tz_offset

/-- Fix a broken date (`fix_date`); returns the updated `*date`. -/
def fix_date (date : date_t) : date_t :=
  let date := if date.hour = 24 then { date with hour := 0 } else date
  convert_to_timezone date date.tz_offset

/-! ## POSIX seconds bridge (`datecal.h` lines 202-243) -/

/-- The loop `while (days >= year_length(year)) { days -= year_length(year); year++; }`
of `time_to_date`.  State: remaining days and year. -/
def years_up : Nat → Int → Int → Int × Int
  | 0, days, year => (days, year)
  | fuel + 1, days, year =>
    if days ≥ year_length year then years_up fuel (days - year_length year) (year + 1)
    else (days, year)

/-- The loop `while (days <= 0) { year--; days += year_length(year); }` of `time_to_date`.
State: remaining days and year. -/
def years_down : Nat → Int → Int → Int × Int
  | 0, days, year => (days, year)
  | fuel + 1, days, year =>
    if days ≤ 0 then years_down fuel (days + year_length (year - 1)) (year - 1)
    else (days, year)

/-- Convert POSIX `time_t` time to `date_t` (`time_to_date`).  Each round of a year loop
moves the day count by at least 365 toward the exit, so `|days| + 1` rounds of fuel are
enough for them; the month loop gets the fuel 13. -/
def time_to_date (time : Int) : date_t :=
  let days_since_epoch := _div time 86400
  let time_of_day := _mod time 86400
  let second := time_of_day.tmod 60
  let minute := (time_of_day.tdiv 60).tmod 60
  let hour := time_of_day.tdiv 3600
  let weekday := _mod (unix_epoch.weekday + days_since_epoch) 7
  let year := unix_epoch.year
  let fuel := days_since_epoch.natAbs + 1
  let st :=
    if days_since_epoch ≥ 0 then years_up fuel days_since_epoch year
    else years_down fuel days_since_epoch year
  let days_since_epoch := st.1
  let year := st.2
  let walk := month_walk year 13 days_since_epoch unix_epoch.month
  { year := year, month := walk.2, day := unix_epoch.day + walk.1,
    hour := hour, minute := minute, second := second, usecond := 0,
    weekday := weekday, tz_offset := 0 }

/-! ## Comparison and arithmetic (`datecal.h` lines 393-462) -/

/-- Compare two dates (`date_compare`): 1, 0 or -1 from the encoded microseconds. -/
def date_compare (g s : date_t) : Int :=
  let g_time := date_to_usec_since_zero g
  let s_time := date_to_usec_since_zero s
  if g_time > s_time then 1
  else if g_time < s_time then -1
  else 0

/-- Difference between two dates in microseconds (`usec_difference`). -/
def usec_difference (sooner later : date_t) : Int :=
  date_to_usec_since_zero later - date_to_usec_since_zero sooner

/-- Difference between two dates as a `timediff_t` (`difference`): successive truncated
division.  The remainders are below their moduli, so only the final assignment
`diff.weeks = time` can change the value when it narrows `long long` to `int`. -/
def difference (sooner later : date_t) : timediff_t :=
  let time := usec_difference sooner later
  let useconds := time.tmod 1000000
  let time := time.tdiv 1000000
  let seconds := time.tmod 60
  let time := time.tdiv 60
  let minutes := time.tmod 60
  let time := time.tdiv 60
  let hours := time.tmod 24
  let time := time.tdiv 24
  let days := time.tmod 7
  let time := time.tdiv 7
  { weeks := to_int time, days := days, hours := hours, minutes := minutes,
    seconds := seconds, useconds := useconds }

/-- Get the date a `timediff_t` after a date (`date_add`). -/
def date_add (date : date_t) (difference : timediff_t) : date_t :=
  let new_date := date
  let new_date := { new_date with day := new_date.day + (difference.days + difference.weeks * 7) }
  let new_date := { new_date with hour := new_date.hour + difference.hours }
  let new_date := { new_date with minute := new_date.minute + difference.minutes }
  let new_date := { new_date with second := new_date.second + difference.seconds }
  let new_date := { new_date with usecond := new_date.usecond + difference.useconds }
  fix_date new_date


/-! ## Derivations (`datecal.h` lines 184-200, 266-317, 415-427) -/

/-- Convert `date_t` time to POSIX `time_t` (`date_to_time`). -/
def date_to_time (date : date_t) : Int :=
  let time := date.second + 60 * (date.minute - date.tz_offset) + 3600 * date.hour
  let days_since_epoch := date.day - unix_epoch.day
  let days_since_epoch := months_loop date.year date.month.toNat date.month days_since_epoch
  let days_since_epoch := days_since_epoch
    + ((date.year - unix_epoch.year) * 365 + leap_years_between unix_epoch.year date.year)
  time + days_since_epoch * 86400

/-- Number of the day in a year, January 1 being the first day (`day_of_year`). -/
def day_of_year (date : date_t) : Int :=
  let days := date.day
  months_loop date.year date.month.toNat date.month days

/-- ISO week number of a `date_t` (`iso_week_number`). -/
def iso_week_number (date : date_t) : Int :=
  let first_of_year := date
  let first_of_year := { first_of_year with day := 1 }
  let first_of_year := { first_of_year with month := 1 }
  let first_of_year := fix_date first_of_year
  let first_of_year :=
    { first_of_year with day := first_of_year.day + _mod (first_of_year.weekday - 3) 7 }
  let first_of_year := fix_date first_of_year
  if date_compare first_of_year date = 1 then
    (if is_leap_year (date.year - 1) then 53 else 52)
  else
    (day_of_year date - first_of_year.day).tdiv 7 + 1

/-- ISO week-numbering year of a `date_t` (`iso_week_numbering_year`). -/
def iso_week_numbering_year (date : date_t) : Int :=
  if date.month = 12 ∧ (date.day - date.weekday + 1) > 27 then date.year + 1
  else if date.month = 1 ∧ (date.weekday - date.day) > 3 then date.year - 1
  else date.year

/-- Century of a year (`century`). -/
def century (year : Int) : Int :=
  if year < 0 then (-year).tdiv 100 - 1
  else (year - 1).tdiv 100 + 1

/-- The right shift `x >> k` of a signed value (an arithmetic shift: floor division by
`2 ^ k`). -/
def shift_right (x : Int) (k : Nat) : Int :=
  x / 2 ^ k

/-- Day and month of Easter in the year of `*date` (`easter_in_year`); returns the updated
`*date`.  The `short` locals hold values far inside the 16-bit range for every year a
statement below is about. -/
def easter_in_year (date : date_t) : date_t :=
  let a := _mod date.year 19
  let b := shift_right date.year 2
  let c := b.tdiv 25 + 1
  let d := shift_right (c * 3) 2
  let e := _mod ((a * 19) - ((c * 8 + 5).tdiv 25) + d + 15) 30
  let e := e + shift_right (29578 - a - e * 32) 10
  let e := e - _mod (_mod date.year 7 + b - d + e + 2) 7
  let d := shift_right e 5
  let date := { date with day := e - d * 31 }
  { date with month := d + 3 }

/-! ## Name tables (`datecal.h` lines 69-80)

An index outside a table is an out-of-bounds read in C; the embedding returns the empty
string there and no statement below relies on that value. -/

/-- English weekday names, `D_WEEKDAY_NAMES`. -/
def D_WEEKDAY_NAMES : List String :=
  ["Monday", "Tuesday", "Wednesday", "Thursday", "Friday", "Saturday", "Sunday", "Invalid"]
/-- Weekday name abbreviations, `D_WEEKDAY_ABBRV`. -/
def D_WEEKDAY_ABBRV : List String :=
  ["Mon", "Tue", "Wed", "Thu", "Fri", "Sat", "Sun", "Inv"]
/-- English month names, `D_MONTH_NAMES`. -/
def D_MONTH_NAMES : List String :=
  ["January", "February", "March", "April", "May", "June", "July", "August", "September",
   "October", "November", "December", "Invalid"]
/-- Month name abbreviations, `D_MONTH_ABBRV`. -/
def D_MONTH_ABBRV : List String :=
  ["Jan", "Feb", "Mar", "Apr", "May", "Jun", "Jul", "Aug", "Sep", "Oct", "Nov", "Dec", "Inv"]
/-- The table `D_AMPM_CAPS`. -/
def D_AMPM_CAPS : List String := ["AM", "PM"]
/-- The table `D_AMPM_SMALL`. -/
def D_AMPM_SMALL : List String := ["a.m.", "p.m."]
/-- The table `D_ADBC`. -/
def D_ADBC : List String := ["CE", "BCE"]
/-- The table `D_PLUSMINUS`. -/
def D_PLUSMINUS : List String := ["+", "-"]

/-- The access `table[i]` to a table of C strings, as the characters of the string. -/
def table_at (table : List String) (i : Int) : List Char :=
  if 0 ≤ i then (table.getD i.toNat "").toList else []

/-! ## Memory written by the string functions

The caller's buffer and whatever lies behind it are one sequence of cells, indexed from
the start of the buffer.  A cell is `none` until the code writes it; the sequence is as
long as the highest index written so far plus one, so "the code wrote only below `len`"
is "the sequence has at most `len` cells". -/

/-- Cells written so far, from the start of the caller's buffer. -/
abbrev Cells := List (Option Char)

/-- The NUL character that ends a C string. -/
def NUL : Char := Char.ofNat 0

/-- The write `buffer[i] = c`. -/
def poke (cells : Cells) (i : Nat) (c : Char) : Cells :=
  if i < cells.length then cells.set i (some c)
  else cells ++ List.replicate (i - cells.length) none ++ [some c]

/-- Consecutive writes of the characters of `s`, from index `i` on. -/
def poke_string : List Char → Cells → Nat → Cells
  | [], cells, _ => cells
  | c :: cs, cells, i => poke_string cs (poke cells i c) (i + 1)

/-- The C string held by the cells: the characters before the first NUL.  The result is
`none` when a cell before the first NUL was never written or when there is no NUL. -/
def c_string : Cells → Option (List Char)
  | [] => none
  | none :: _ => none
  | some c :: rest =>
    if c = NUL then some [] else (c_string rest).map (fun s => c :: s)

/-- The value of `len - j - k` in `size_t` arithmetic (64 bits, wrapping). -/
def size_sub (len j k : Nat) : Nat :=
  (((len : Int) - j - k) % 18446744073709551616).toNat

/-! ## The C library functions the formatter calls

Modelled from the C standard (the repository only calls them): `snprintf` writes at most
`size - 1` characters of the formatted text and a NUL when `size > 0`, and returns the
length of the whole formatted text; `strcpy` writes the string and its NUL. -/

/-- Modelled from the C standard: the effect of `snprintf(buffer + at, size, ...)` whose
formatted text is `text`, and its return value. -/
def snprintf (cells : Cells) (pos size : Nat) (text : List Char) : Cells × Nat :=
  if size = 0 then (cells, text.length)
  else (poke_string (text.take (size - 1) ++ [NUL]) cells pos, text.length)

/-- Modelled from the C standard: the effect of `strcpy(buffer + at, s)`. -/
def strcpy (cells : Cells) (pos : Nat) (s : List Char) : Cells :=
  poke_string (s ++ [NUL]) cells pos

/-- Decimal digits of `n`, most significant first; `fuel` bounds the number of digits. -/
def decimal_digits : Nat → Nat → List Char
  | 0, _ => []
  | fuel + 1, n =>
    if n < 10 then [Nat.digitChar n]
    else decimal_digits fuel (n / 10) ++ [Nat.digitChar (n % 10)]

/-- Decimal digits of the magnitude of a `long long` (at most 19 digits). -/
def decimal (n : Nat) : List Char :=
  decimal_digits 20 n

/-- Modelled from the C standard: the text of the conversion `%lld` (when `flag` is
`none`) or `%F*lld` with flag character `F` and width `width`, for the flags `+`, `0` and
space that `dnprintf` passes on.  Another flag character gives the text of the plain
right-justified conversion. -/
def format_lld (flag : Option Char) (width : Int) (num : Int) : List Char :=
  let body := decimal num.natAbs
  match flag with
  | none => (if num < 0 then ['-'] else []) ++ body
  | some f =>
    let sign : List Char :=
      if num < 0 then ['-'] else if f = '+' then ['+'] else if f = ' ' then [' '] else []
    let fill := (width - (sign.length + body.length : Nat)).toNat
    if f = '0' then sign ++ List.replicate fill '0' ++ body
    else List.replicate fill ' ' ++ sign ++ body

/-- Modelled from the C standard: the text of the conversion `%s` (when `flag` is `none`)
or `%F*s` with width `width`: the string, right-justified with spaces. -/
def format_s (flag : Option Char) (width : Int) (str : List Char) : List Char :=
  match flag with
  | none => str
  | some _ => List.replicate (width - (str.length : Nat)).toNat ' ' ++ str

/-! ## Formatter (`dateformat.h`) -/

/-- The text that the `snprintf` call of `place_n_in_s` formats for `num`, `opt`, `padd`:
`if (num < 0) padd++;` then `"%lld"` when `opt` is 0 or `^`, else `"%F*lld"` with the
flag `F = opt` and width `padd`.  `opt = NUL` is the C value `0`. -/
def place_n_text (num : Int) (opt : Char) (padd : Int) : List Char :=
  let padd := if num < 0 then padd + 1 else padd
  if opt = NUL ∨ opt = '^' then format_lld none 0 num
  else format_lld (some opt) padd num

/-- Helper `place_n_in_s`: put a number inside of a string buffer. -/
def place_n_in_s (cells : Cells) (pos len : Nat) (num : Int) (opt : Char) (padd : Int) :
    Cells × Nat :=
  snprintf cells pos len (place_n_text num opt padd)

/-- The text that the `snprintf` call of `place_s_in_s` formats: `"%s"` when `opt` is 0 or
`^`, else `"%F*s"` with the flag `F = opt` and width `padd`. -/
def place_s_text (str : List Char) (opt : Char) (padd : Int) : List Char :=
  if opt = NUL ∨ opt = '^' then format_s none 0 str
  else format_s (some opt) padd str

/-- Helper `place_s_in_s`: put a string inside of a string buffer. -/
def place_s_in_s (cells : Cells) (pos len : Nat) (str : List Char) (opt : Char) (padd : Int) :
    Cells × Nat :=
  snprintf cells pos len (place_s_text str opt padd)

/-- The table `huns` of `convert_to_roman`. -/
def huns : List String := ["", "C", "CC", "CCC", "CD", "D", "DC", "DCC", "DCCC", "CM"]
/-- The table `tens` of `convert_to_roman`. -/
def tens : List String := ["", "X", "XX", "XXX", "XL", "L", "LX", "LXX", "LXXX", "XC"]
/-- The table `ones` of `convert_to_roman`. -/
def ones : List String := ["", "I", "II", "III", "IV", "V", "VI", "VII", "VIII", "IX"]
/-- The table `size` of `convert_to_roman`. -/
def size : List Nat := [0, 1, 2, 3, 2, 1, 2, 3, 4, 2]

/-- The loop `while (val >= 1000) { if (len-- < 1) return 0; *buf++ = 'M'; val -= 1000; }`
of `convert_to_roman`.  State: cells, write position, `len`, `val`; the result is `none`
when the loop returns 0 from the function. -/
def roman_thousands : Nat → Cells → Nat → Nat → Nat → Option (Cells × Nat × Nat × Nat)
  | 0, cells, pos, len, val => some (cells, pos, len, val)
  | fuel + 1, cells, pos, len, val =>
    if val ≥ 1000 then
      if len < 1 then none
      else roman_thousands fuel (poke cells pos 'M') (pos + 1) (len - 1) (val - 1000)
    else some (cells, pos, len, val)

/-- Convert a number to a roman numeral string (`convert_to_roman`), writing from index
`init` of the cells.  Returns the cells and the `int` result.  The thousands loop runs
`val / 1000` rounds at most, which is its fuel. -/
def convert_to_roman (val : Nat) (cells : Cells) (init len : Nat) : Cells × Nat :=
  match roman_thousands (val / 1000) cells init len val with
  | none => (cells, 0)
  | some (cells, buf, len, val) =>
    if len < size.getD (val / 100) 0 then (cells, 0)
    else
      let len := len - size.getD (val / 100) 0
      let cells := strcpy cells buf (table_at huns (val / 100 : Nat))
      let buf := buf + size.getD (val / 100) 0
      let val := val % 100
      if len < size.getD (val / 10) 0 then (cells, 0)
      else
        let len := len - size.getD (val / 10) 0
        let cells := strcpy cells buf (table_at tens (val / 10 : Nat))
        let buf := buf + size.getD (val / 10) 0
        let val := val % 10
        if len < size.getD val 0 then (cells, 0)
        else
          let len := len - size.getD val 0
          let cells := strcpy cells buf (table_at ones (val : Nat))
          let buf := buf + size.getD val 0
          if len < 1 then (cells, len)
          else (poke cells buf NUL, buf - init)

/-- Conversion of an `int` argument to the `unsigned int` parameter of
`convert_to_roman`. -/
def to_unsigned (x : Int) : Nat :=
  (x % 4294967296).toNat

/-- The C value of a comparison, `1` or `0`. -/
def c_bool (p : Bool) : Int := if p then 1 else 0

/-- The year without a year zero, `(d.year <= 0 ? - d.year + 1 : d.year)`. -/
def year_no_zero (d : date_t) : Int :=
  if d.year ≤ 0 then - d.year + 1 else d.year

/-- What one case of the `switch (c)` of `dnprintf` does: the macro `PUT(NUM, opt, PADD)`,
the macro `PUTS(STR, opt, PADD)`, a call
`j += convert_to_roman(val, buffer + j, len - j - 1)` (`spare = true`) or
`j += convert_to_roman(val, buffer + j, len - j)` (`spare = false`), the write
`buffer[j++] = '%'`, or nothing (no case for the letter). -/
inductive Case where
  | put (num : Int) (padd : Int)
  | puts (str : List Char) (padd : Int)
  | roman (val : Nat) (spare : Bool)
  | percent
  | skip

/-- The case that `switch (c)` of `dnprintf` selects for directive letter `c` with flag
`opt`, with the arguments of its macro or call. -/
def switch_case (d : date_t) (c opt : Char) : Case :=
  let flagged : Int := c_bool (opt != NUL)
  if c = '%' then Case.percent
  else if c = 'H' then Case.put d.hour (2 * flagged)
  else if c = 'I' then
    Case.put (if d.hour.tmod 12 = 0 then 12 else d.hour.tmod 12) (2 * flagged)
  else if c = 'M' then Case.put d.minute (2 * flagged)
  else if c = 'S' then Case.put d.second (2 * flagged)
  else if c = 's' then Case.put ((date_to_usec_since_zero d).tdiv 1000000) (12 * flagged)
  else if c = 'u' then Case.put d.usecond (6 * flagged)
  else if c = 'Y' then Case.put d.year (4 * flagged)
  else if c = 'y' then Case.put (d.year.tmod 100) (2 * flagged)
  else if c = 'F' then Case.put (iso_week_numbering_year d) (4 * flagged)
  else if c = 'J' then Case.put (year_no_zero d) (4 * flagged)
  else if c = 'j' then Case.put ((year_no_zero d).tmod 100) (2 * flagged)
  else if c = 'm' then Case.put d.month (2 * flagged)
  else if c = 'd' then Case.put d.day (2 * flagged)
  else if c = 'a' then Case.puts (table_at D_MONTH_ABBRV (d.month - 1)) (3 * flagged)
  else if c = 'A' then Case.puts (table_at D_MONTH_NAMES (d.month - 1)) (9 * flagged)
  else if c = 'r' then Case.roman (to_unsigned d.month) true
  else if c = 'R' then Case.roman (to_unsigned (year_no_zero d)) true
  else if c = 'b' then Case.puts (table_at D_WEEKDAY_ABBRV d.weekday) (3 * flagged)
  else if c = 'B' then Case.puts (table_at D_WEEKDAY_NAMES d.weekday) (3 * flagged)
  else if c = 'w' then Case.put (d.weekday + 1) flagged
  else if c = 'v' then Case.put ((d.weekday + 1).tmod 7) flagged
  else if c = 'c' then Case.put |century d.year| (2 * flagged)
  else if c = 'C' then Case.roman (to_unsigned |century d.year|) false
  else if c = 'L' then Case.puts (table_at D_ADBC (c_bool (d.year ≤ 0))) (2 * flagged)
  else if c = 'l' then Case.puts (table_at D_PLUSMINUS (c_bool (d.year ≤ 0))) flagged
  else if c = 'W' then Case.put (iso_week_number d) (2 * flagged)
  else if c = 'p' then Case.puts (table_at D_AMPM_SMALL (d.hour.tdiv 12)) (3 * flagged)
  else if c = 'P' then Case.puts (table_at D_AMPM_CAPS (d.hour.tdiv 12)) (3 * flagged)
  else if c = 't' then Case.puts (table_at D_PLUSMINUS (c_bool (d.tz_offset < 0))) flagged
  else if c = 'Z' then Case.put (|d.tz_offset|.tdiv 60) (2 * flagged)
  else if c = 'z' then Case.put (|d.tz_offset|.tmod 60) (2 * flagged)
  else if c = 'X' then Case.put |d.tz_offset| (2 * flagged)
  else Case.skip

/-- The effect of the `switch (c)` of `dnprintf` for directive letter `c` with flag `opt`:
the cells and `j` after the case.  `PUT(NUM, OPT, PADD)` is
`j += place_n_in_s(buffer + j, len - j - 1, NUM, OPT, PADD)`, and `PUTS` likewise. -/
def directive (d : date_t) (len : Nat) (c opt : Char) (cells : Cells) (j : Nat) :
    Cells × Nat :=
  match switch_case d c opt with
  | Case.put num padd =>
    let r := place_n_in_s cells j (size_sub len j 1) num opt padd
    (r.1, j + r.2)
  | Case.puts str padd =>
    let r := place_s_in_s cells j (size_sub len j 1) str opt padd
    (r.1, j + r.2)
  | Case.roman val spare =>
    let r := convert_to_roman val cells j (size_sub len j (if spare then 1 else 0))
    (r.1, j + r.2)
  | Case.percent => (poke cells j '%', j + 1)
  | Case.skip => (cells, j)

/-- The `for (int i = 0; i < f_len; i++)` loop of `dnprintf`.  `format` holds the
characters before the terminating NUL, so `format[i]` at `i = f_len` reads NUL.  State:
`i`, `j` and the cells; every round advances `i`, so `f_len` rounds of fuel are enough. -/
def dnprintf_loop (d : date_t) (len : Nat) (format : List Char) :
    Nat → Nat → Nat → Cells → Cells × Nat
  | 0, _, j, cells => (cells, j)
  | fuel + 1, i, j, cells =>
    if i < format.length then
      let c := format.getD i NUL
      if c ≠ '%' then dnprintf_loop d len format fuel (i + 1) (j + 1) (poke cells j c)
      else
        let i := i + 1
        let c := format.getD i NUL
        if c = NUL then (cells, j)
        else if c = '+' ∨ c = '0' ∨ c = ' ' then
          let opt := c
          let i := i + 1
          let c := format.getD i NUL
          if c = NUL then (cells, j)
          else
            let r := directive d len c opt cells j
            dnprintf_loop d len format fuel (i + 1) r.2 r.1
        else
          let r := directive d len c NUL cells j
          dnprintf_loop d len format fuel (i + 1) r.2 r.1
    else (cells, j)

/-- Create a date string with format (`dnprintf`): the cells written, starting from a
buffer of which nothing has been written. -/
def dnprintf (d : date_t) (len : Nat) (format : List Char) : Cells :=
  let r := dnprintf_loop d len format format.length 0 0 []
  poke r.1 r.2 NUL

/-- The template `F_ISO_8601_T`. -/
def F_ISO_8601_T : List Char := "%0Y-%0m-%0dT%0H:%0M:%0S.%0u%t%0Z:%0z".toList

/-! ## Dates of the demonstration program (`main.c` lines 13-14) -/

/-- The date `caesars_assasitation` of `main`. -/
def caesars_assasitation : date_t := make_date (-43) 3 15 21 0 0 0 120
/-- The date `pearl_harbor` of `main`. -/
def pearl_harbor : date_t := make_date 1941 12 7 7 48 0 0 (-630)

/-- The date of the formatting example in the comment of `F_ISO_8601_T`
(`dateformat.h` line 13), 2015-06-11 21:53:12.543294 at offset +02:00. -/
def iso_example_date : date_t := make_date 2015 6 11 21 53 12 543294 120

/-! ## Definitions used to state and prove the theorems

These functions are not code of the library: they name what theorems below compare the
library with. -/

/-- Days from the first day of `month` to the end of the year, read off the table row. -/
def days_from_month_start (leap : Bool) (month : Int) : Int :=
  ((month_lengths_row leap).drop (month - 1).toNat).sum

/-- A date of year `Y` with all other fields zero. -/
def date_of_year (Y : Int) : date_t :=
  { year := Y, month := 0, day := 0, hour := 0, minute := 0, second := 0,
    usecond := 0, weekday := 0, tz_offset := 0 }

/-- The Meeus/Jones/Butcher computation of Gregorian Easter as the specification words it:
the pair (month, day) for year `Y`. -/
def meeus_easter (Y : Int) : Int × Int :=
  let a := Y % 19
  let b := Y / 100
  let c := Y % 100
  let d := b / 4
  let e := b % 4
  let f := (b + 8) / 25
  let g := (b - f + 1) / 3
  let h := (19 * a + b - d - g + 15) % 30
  let i := c / 4
  let k := c % 4
  let l := (32 + 2 * e + 2 * i - h - k) % 7
  let m := (a + 11 * h + 22 * l) / 451
  ((h + l - 7 * m + 114) / 31, (h + l - 7 * m + 114) % 31 + 1)

/-- The value `e` that `easter_in_year` splits into month and day, for a year `Y ≥ 0`, in
natural-number arithmetic. -/
def easter_code (Y : Nat) : Nat :=
  let a := Y % 19
  let b := Y / 4
  let c := b / 25 + 1
  let d := c * 3 / 4
  let e := (a * 19 + d + 15 - (c * 8 + 5) / 25) % 30
  let e := e + (29578 - a - e * 32) / 1024
  e - (Y % 7 + b - d + e + 2) % 7

/-- The value `h + l - 7m + 114` of `meeus_easter`, for a year `Y ≥ 0`, in natural-number
arithmetic. -/
def meeus_code (Y : Nat) : Nat :=
  let a := Y % 19
  let b := Y / 100
  let c := Y % 100
  let d := b / 4
  let e := b % 4
  let f := (b + 8) / 25
  let g := (b + 1 - f) / 3
  let h := (19 * a + b + 15 - d - g) % 30
  let i := c / 4
  let k := c % 4
  let l := (32 + 2 * e + 2 * i - h - k) % 7
  let m := (a + 11 * h + 22 * l) / 451
  h + l + 114 - 7 * m

/-- The check that `easter_code` and `meeus_code` describe the same day for year `Y`. -/
def easter_agrees (Y : Nat) : Bool :=
  Nat.beq (easter_code Y + 92) (meeus_code Y) && Nat.blt 0 (easter_code Y)
    && Nat.blt (easter_code Y) 63

/-- The check `p` holds for the `n` numbers `start, start + 1, ...`. -/
def all_from (p : Nat → Bool) : Nat → Nat → Bool
  | 0, _ => true
  | n + 1, start => p start && all_from p n (start + 1)

/-- The Roman numeral of `val` as `convert_to_roman` composes it: `M` for every thousand,
then the entries of the tables `huns`, `tens` and `ones`. -/
def roman_text (val : Nat) : List Char :=
  List.replicate (val / 1000) 'M' ++ table_at huns ((val % 1000 / 100 : Nat) : Int)
    ++ table_at tens ((val % 100 / 10 : Nat) : Int) ++ table_at ones ((val % 10 : Nat) : Int)

/-- The text that one directive of `dnprintf` contributes when the buffer has room: the
formatted text of the `PUT`/`PUTS` of the case, or the Roman numeral. -/
def directive_text (d : date_t) (c opt : Char) : List Char :=
  match switch_case d c opt with
  | Case.put num padd => place_n_text num opt padd
  | Case.puts str padd => place_s_text str opt padd
  | Case.roman val _ => roman_text val
  | Case.percent => ['%']
  | Case.skip => []

/-- The text that `dnprintf` composes for a template when nothing is cut short: the walk
of `dnprintf_loop` over the template, collecting literal characters and directive texts. -/
def render_loop (d : date_t) (format : List Char) : Nat → Nat → List Char → List Char
  | 0, _, text => text
  | fuel + 1, i, text =>
    if i < format.length then
      let c := format.getD i NUL
      if c ≠ '%' then render_loop d format fuel (i + 1) (text ++ [c])
      else
        let i := i + 1
        let c := format.getD i NUL
        if c = NUL then text
        else if c = '+' ∨ c = '0' ∨ c = ' ' then
          let opt := c
          let i := i + 1
          let c := format.getD i NUL
          if c = NUL then text
          else render_loop d format fuel (i + 1) (text ++ directive_text d c opt)
        else render_loop d format fuel (i + 1) (text ++ directive_text d c NUL)
    else text

/-- The text that `dnprintf` composes for a template when nothing is cut short. -/
def render (d : date_t) (format : List Char) : List Char :=
  render_loop d format format.length 0 []

/-- The decimal digits of `n` in exactly `w` places, most significant first. -/
def zero_padded (w n : Nat) : List Char :=
  (List.range w).reverse.map (fun k => Nat.digitChar (n / 10 ^ k % 10))

/-- The cells hold `text` in their first `j` places and have at most one more cell: the
state of the buffer between two steps of `dnprintf` when nothing was cut short. -/
def holds_text (cells : Cells) (j : Nat) (text : List Char) : Prop :=
  j = text.length ∧ cells.take j = text.map some ∧ j ≤ cells.length ∧ cells.length ≤ j + 1

/-- The year that the cycle arithmetic of `usec_since_zero_to_date` derives from a day
count, with floor division written as `/` and `%`. -/
def year_of_days (D : Int) : Int :=
  400 * (D / 146097) + 100 * (D % 146097 / 36524) + 4 * (D % 146097 % 36524 / 1461)
    + D % 146097 % 36524 % 1461 / 365

/-- The day count inside the year that the cycle arithmetic of `usec_since_zero_to_date`
leaves. -/
def rem_of_days (D : Int) : Int :=
  D % 146097 % 36524 % 1461 % 365

/-- The day count that inverts the cycle arithmetic of the decoder for the first day of
year `Y`: `365 Y` plus the floor quotients of `Y` by 4, 100 and 400. -/
def year_start (Y : Int) : Int :=
  365 * Y + Y / 4 - Y / 100 + Y / 400

/-- The wall-clock microseconds of the time fields of a date. -/
def wall_usec (d : date_t) : Int :=
  ((d.hour * 60 + d.minute) * 60 + d.second) * 1000000 + d.usecond

/-- The time fields of a date are in range. -/
def time_in_range (d : date_t) : Prop :=
  (0 ≤ d.hour ∧ d.hour ≤ 23) ∧ (0 ≤ d.minute ∧ d.minute ≤ 59) ∧
  (0 ≤ d.second ∧ d.second ≤ 59) ∧ (0 ≤ d.usecond ∧ d.usecond ≤ 999999)

/-- How far the day count that the encoder gives the first day of year `Y` lies behind
the day count `year_start Y` that the decoder inverts. -/
def encoder_shift (Y : Int) : Int :=
  Y * 365 + leap_years_before (Y + 1) - year_start Y

/-- The symbols of the classical Roman notation with their values, largest first:
M=1000, CM=900, D=500, CD=400, C=100, XC=90, L=50, XL=40, X=10, IX=9, V=5, IV=4, I=1. -/
def roman_symbols : List (Nat × List Char) :=
  [(1000, ['M']), (900, ['C', 'M']), (500, ['D']), (400, ['C', 'D']), (100, ['C']),
   (90, ['X', 'C']), (50, ['L']), (40, ['X', 'L']), (10, ['X']), (9, ['I', 'X']),
   (5, ['V']), (4, ['I', 'V']), (1, ['I'])]

/-- The text `s` written `n` times. -/
def repeat_text : Nat → List Char → List Char
  | 0, _ => []
  | n + 1, s => s ++ repeat_text n s

/-- The greedy expansion of `n` over a list of symbols sorted from the largest value:
each symbol is written as often as its value fits in what is left of `n`. -/
def greedy_over : List (Nat × List Char) → Nat → List Char
  | [], _ => []
  | (v, s) :: rest, n => repeat_text (n / v) s ++ greedy_over rest (n % v)

/-- The greedy expansion of `val` over the symbols of the classical Roman notation. -/
def greedy_roman (val : Nat) : List Char :=
  greedy_over roman_symbols val

/-- The check that below 1000 the entries of the tables `huns`, `tens` and `ones` make up
the greedy expansion over the symbols below M. -/
def tables_are_greedy (v : Nat) : Bool :=
  decide (greedy_over roman_symbols.tail v
    = table_at huns ((v / 100 : Nat) : Int) ++ table_at tens ((v % 100 / 10 : Nat) : Int)
      ++ table_at ones ((v % 10 : Nat) : Int))

/-! ## Lemmas: integer helpers -/


theorem tdiv_tmod_cases (a b : Int) (hb : 0 < b) :
    (0 ≤ a ∧ a.tdiv b = a / b ∧ a.tmod b = a % b) ∨
    (a < 0 ∧ a.tdiv b = -((-a) / b) ∧ a.tmod b = -((-a) % b)) := by
  by_cases h : 0 ≤ a
  · exact Or.inl ⟨h, Int.tdiv_eq_ediv h hb.le, Int.tmod_eq_emod h hb.le⟩
  · have hneg : 0 ≤ -a := by omega
    have hd : a.tdiv b = -((-a) / b) := by
      have h1 := Int.neg_tdiv (-a) b
      rw [neg_neg] at h1
      rw [h1, Int.tdiv_eq_ediv hneg hb.le]
    refine Or.inr ⟨by omega, hd, ?_⟩
    rw [Int.tmod_def, hd, Int.emod_def]
    ring

theorem tmod_range (a b : Int) (hb : 0 < b) :
    (0 ≤ a → 0 ≤ a.tmod b ∧ a.tmod b < b) ∧ (a < 0 → -b < a.tmod b ∧ a.tmod b ≤ 0) := by
  have hb0 : b ≠ 0 := by omega
  have h5 := Int.emod_nonneg (-a) hb0
  have h6 := Int.emod_lt_of_pos (-a) hb
  have h2 := Int.emod_nonneg a hb0
  have h3 := Int.emod_lt_of_pos a hb
  rcases tdiv_tmod_cases a b hb with ⟨h, _, hm⟩ | ⟨h, _, hm⟩
  · exact ⟨fun _ => by omega, fun h' => by omega⟩
  · exact ⟨fun h' => by omega, fun _ => by omega⟩

theorem floor_helpers (a b : Int) (hb : 0 < b) :
    _mod a b + b * _div a b = a ∧ 0 ≤ _mod a b ∧ _mod a b < b := by
  have h1 := Int.tmod_add_tdiv a b
  have ⟨hp, hn⟩ := tmod_range a b hb
  unfold _div _mod
  by_cases hc : a ≥ 0 ∨ a.tmod b = 0
  · simp only [hc, if_true]
    refine ⟨h1, ?_, ?_⟩
    · rcases hc with hc | hc
      · exact (hp hc).1
      · omega
    · rcases hc with hc | hc
      · exact (hp hc).2
      · omega
  · simp only [hc, if_false]
    have ha : a < 0 := by omega
    have hne : a.tmod b ≠ 0 := fun h => hc (Or.inr h)
    have := hn ha
    refine ⟨by linear_combination h1, by omega, by omega⟩

theorem floor_helpers_l (a b : Int) (hb : 0 < b) :
    _modl a b + b * _divl a b = a ∧ 0 ≤ _modl a b ∧ _modl a b < b :=
  floor_helpers a b hb

theorem div_eq_ediv (a b : Int) (hb : 0 < b) : _div a b = a / b :=
  ((Int.ediv_emod_unique hb).mpr (floor_helpers a b hb)).1.symm

theorem mod_eq_emod (a b : Int) (hb : 0 < b) : _mod a b = a % b :=
  ((Int.ediv_emod_unique hb).mpr (floor_helpers a b hb)).2.symm

theorem divl_eq_ediv (a b : Int) (hb : 0 < b) : _divl a b = a / b :=
  div_eq_ediv a b hb

theorem modl_eq_emod (a b : Int) (hb : 0 < b) : _modl a b = a % b :=
  mod_eq_emod a b hb

theorem tdiv_stage (t b : Int) (hb : 0 < b) :
    t.tdiv b * b + t.tmod b = t ∧
    (0 ≤ t → 0 ≤ t.tdiv b ∧ 0 ≤ t.tmod b ∧ t.tmod b < b) ∧
    (t ≤ 0 → t.tdiv b ≤ 0 ∧ -b < t.tmod b ∧ t.tmod b ≤ 0) := by
  have h1 := Int.tmod_add_tdiv t b
  have ⟨hp, hn⟩ := tmod_range t b hb
  refine ⟨by linear_combination h1, fun h => ⟨Int.tdiv_nonneg h hb.le, hp h⟩, fun h => ?_⟩
  rcases tdiv_tmod_cases t b hb with ⟨h0, e, m⟩ | ⟨h0, e, m⟩
  · have ht : t = 0 := by omega
    subst ht
    simp [hb]
  · have := hn h0
    have h2 : 0 ≤ (-t) / b := Int.ediv_nonneg (by omega) hb.le
    exact ⟨by omega, this⟩

theorem to_int_of_fits (x : Int) (h1 : -2147483648 ≤ x) (h2 : x ≤ 2147483647) :
    to_int x = x := by
  unfold to_int
  omega

theorem sign_eq_of_aligned (c t : Int) (hp : 0 ≤ t → 0 ≤ c) (hn : t ≤ 0 → c ≤ 0)
    (hc : c ≠ 0) : Int.sign c = Int.sign t := by
  rcases lt_trichotomy t 0 with ht | ht | ht
  · have h := hn ht.le
    have hc0 : c < 0 := by omega
    rw [Int.sign_eq_neg_one_of_neg hc0, Int.sign_eq_neg_one_of_neg ht]
  · have h := hn ht.le
    have h2 := hp ht.ge
    omega
  · have h := hp ht.le
    have hc0 : 0 < c := by omega
    rw [Int.sign_eq_one_of_pos hc0, Int.sign_eq_one_of_pos ht]

/-! ## Lemmas: loops -/


theorem days_from_month_start_succ (leap : Bool) (month : Int) (h1 : 1 ≤ month)
    (h2 : month ≤ 12) :
    days_from_month_start leap month
      = month_lengths leap (month - 1) + days_from_month_start leap (month + 1) ∧
    0 < month_lengths leap (month - 1) := by
  interval_cases month <;> cases leap <;> decide

theorem days_from_month_start_last (leap : Bool) :
    days_from_month_start leap 13 = 0 ∧ 365 ≤ days_from_month_start leap 1 := by
  cases leap <;> decide

theorem month_walk_aux (year : Int) : ∀ (fuel : Nat) (days month : Int),
    1 ≤ month → month ≤ 12 → 0 ≤ days →
    days < days_from_month_start (is_leap_year year) month → 13 ≤ month + fuel →
    ∃ d m, month_walk year fuel days month = (d, m) ∧ 1 ≤ m ∧ m ≤ 12 ∧ 0 ≤ d ∧
      d < month_lengths (is_leap_year year) (m - 1)
  | 0, days, month, _, h2, _, _, hf => by omega
  | fuel + 1, days, month, h1, h2, h0, hr, hf => by
    obtain ⟨hs, hpos⟩ := days_from_month_start_succ (is_leap_year year) month h1 h2
    rw [month_walk]
    by_cases c : days ≥ month_lengths (is_leap_year year) (month - 1)
    · rw [if_pos c]
      have hm : month ≤ 11 := by
        by_contra hcon
        have h12 : month = 12 := by omega
        subst h12
        have := (days_from_month_start_last (is_leap_year year)).1
        norm_num at hs c
        omega
      obtain ⟨d, m, e, a1, a2, a3, a4⟩ :=
        month_walk_aux year fuel (days - month_lengths (is_leap_year year) (month - 1))
          (month + 1) (by omega) (by omega) (by omega) (by omega) (by push_cast at hf; omega)
      exact ⟨d, m, e, by omega, a2, a3, a4⟩
    · rw [if_neg c]
      exact ⟨days, month, rfl, h1, h2, h0, by omega⟩

theorem month_walk_result (year days : Int) (h0 : 0 ≤ days) (h1 : days < 365) :
    ∃ d m, month_walk year 12 days 1 = (d, m) ∧ 1 ≤ m ∧ m ≤ 12 ∧ 0 ≤ d ∧
      d < month_lengths (is_leap_year year) (m - 1) :=
  month_walk_aux year 12 days 1 (by norm_num) (by norm_num) h0
    (by have := (days_from_month_start_last (is_leap_year year)).2; omega) (by norm_num)

theorem months_loop_fuel (year : Int) : ∀ (fuel : Nat) (month days : Int),
    month - 1 ≤ fuel →
    months_loop year (fuel + 1) month days = months_loop year fuel month days
  | 0, month, days, h => by
    have : ¬ month > 1 := by push_cast at h; omega
    simp [months_loop, this]
  | fuel + 1, month, days, h => by
    conv_lhs => rw [months_loop]
    conv_rhs => rw [months_loop]
    by_cases c : month > 1
    · simp only [c, if_true]
      exact months_loop_fuel year fuel _ _ (by push_cast at h; omega)
    · simp only [c, if_false]


theorem month_lengths_values (leap : Bool) :
    month_lengths leap 0 = 31 ∧ month_lengths leap 1 = (if leap then 29 else 28) ∧
    month_lengths leap 2 = 31 ∧ month_lengths leap 3 = 30 ∧ month_lengths leap 4 = 31 ∧
    month_lengths leap 5 = 30 ∧ month_lengths leap 6 = 31 ∧ month_lengths leap 7 = 31 ∧
    month_lengths leap 8 = 30 ∧ month_lengths leap 9 = 31 ∧ month_lengths leap 10 = 30 ∧
    month_lengths leap 11 = 31 := by
  cases leap <;> decide


theorem cycle_values :
    CYCLE_1 = 365 ∧ CYCLE_4 = 1461 ∧ CYCLE_100 = 36524 ∧ CYCLE_400 = 146097 := by
  decide

theorem time_of_day_fields (tod : Int) (h0 : 0 ≤ tod) (h1 : tod < 86400000000) :
    (0 ≤ tod.tdiv 3600000000 ∧ tod.tdiv 3600000000 ≤ 23) ∧
    (0 ≤ (tod.tdiv 60000000).tmod 60 ∧ (tod.tdiv 60000000).tmod 60 ≤ 59) ∧
    (0 ≤ (tod.tdiv 1000000).tmod 60 ∧ (tod.tdiv 1000000).tmod 60 ≤ 59) ∧
    (0 ≤ tod.tmod 1000000 ∧ tod.tmod 1000000 ≤ 999999) := by
  rw [Int.tdiv_eq_ediv h0 (by norm_num), Int.tdiv_eq_ediv h0 (by norm_num),
    Int.tdiv_eq_ediv h0 (by norm_num), Int.tmod_eq_emod h0 (by norm_num),
    Int.tmod_eq_emod (Int.ediv_nonneg h0 (by norm_num)) (by norm_num),
    Int.tmod_eq_emod (Int.ediv_nonneg h0 (by norm_num)) (by norm_num)]
  omega

/-- Ranges of the fields of every decoded date: all fields but the day are in range; the
day is in `1..length` when the decoded year is not negative and in `0..length-1` when it
is negative. -/
theorem usec_since_zero_to_date_ranges (usec tz_offset : Int) :
    (1 ≤ (usec_since_zero_to_date usec tz_offset).month ∧
      (usec_since_zero_to_date usec tz_offset).month ≤ 12) ∧
    (0 ≤ (usec_since_zero_to_date usec tz_offset).hour ∧
      (usec_since_zero_to_date usec tz_offset).hour ≤ 23) ∧
    (0 ≤ (usec_since_zero_to_date usec tz_offset).minute ∧
      (usec_since_zero_to_date usec tz_offset).minute ≤ 59) ∧
    (0 ≤ (usec_since_zero_to_date usec tz_offset).second ∧
      (usec_since_zero_to_date usec tz_offset).second ≤ 59) ∧
    (0 ≤ (usec_since_zero_to_date usec tz_offset).usecond ∧
      (usec_since_zero_to_date usec tz_offset).usecond ≤ 999999) ∧
    (0 ≤ (usec_since_zero_to_date usec tz_offset).weekday ∧
      (usec_since_zero_to_date usec tz_offset).weekday ≤ 6) ∧
    (usec_since_zero_to_date usec tz_offset).tz_offset = tz_offset ∧
    (0 ≤ (usec_since_zero_to_date usec tz_offset).year →
      1 ≤ (usec_since_zero_to_date usec tz_offset).day ∧
      (usec_since_zero_to_date usec tz_offset).day ≤
        month_lengths (is_leap_year (usec_since_zero_to_date usec tz_offset).year)
          ((usec_since_zero_to_date usec tz_offset).month - 1)) ∧
    ((usec_since_zero_to_date usec tz_offset).year < 0 →
      0 ≤ (usec_since_zero_to_date usec tz_offset).day ∧
      (usec_since_zero_to_date usec tz_offset).day <
        month_lengths (is_leap_year (usec_since_zero_to_date usec tz_offset).year)
          ((usec_since_zero_to_date usec tz_offset).month - 1)) := by
  obtain ⟨c1, c4, c100, c400⟩ := cycle_values
  simp only [usec_since_zero_to_date, c1, c4, c100, c400]
  generalize usec + tz_offset * 60000000 = u
  have t0 := (floor_helpers_l u 86400000000 (by norm_num)).2
  have tf := time_of_day_fields (_modl u 86400000000) t0.1 t0.2
  have w0 := (floor_helpers_l (_divl u 86400000000 + 5) 7 (by norm_num)).2
  generalize _divl u 86400000000 = D at *
  have r0 := (floor_helpers_l
    (_modl (_modl (_modl D 146097) 36524) 1461) 365 (by norm_num)).2
  generalize hy : (0 + 400 * _divl D 146097 + 100 * _divl (_modl D 146097) 36524
    + 4 * _divl (_modl (_modl D 146097) 36524) 1461
    + 1 * _divl (_modl (_modl (_modl D 146097) 36524) 1461) 365) = year
  obtain ⟨d, m, e, a1, a2, a3, a4⟩ := month_walk_result year _ r0.1 r0.2
  rw [e]
  refine ⟨⟨a1, a2⟩, tf.1, tf.2.1, tf.2.2.1, tf.2.2.2, ⟨w0.1, by have := w0.2; omega⟩, trivial, ?_, ?_⟩
  · intro hy0
    have : ¬ year < 0 := by omega
    simp only [this, if_false]
    omega
  · intro hy0
    simp only [hy0, if_true]
    omega


/-! ## Claims about the instant codec, normalization and ordering

The encoder `date_to_usec_since_zero` adds `leap_years_before (year + 1)`, which for a
positive year counts the leap years of `1..year`: the leap day of a positive leap year is
charged on its 1 January although the month table charges it again after February, and
year 0 (a leap year for `is_leap_year`) is never counted.  The decoder
`usec_since_zero_to_date` takes `days / 365` inside a four year cycle without a bound, and
reports the day of a negative year without the `+ 1`.  The evaluations below show what
follows for the properties claimed of the codec. -/

/-- C1: the instant codec does not round-trip the in-range date 2016-12-31 00:00:00
(offset 0): decoding its encoding gives 2017-01-01, because 31 December of a leap year and
1 January of the next year have the same encoding. -/
theorem round_trip_fails_on_last_day_of_leap_year :
    usec_since_zero_to_date
      (date_to_usec_since_zero
        { year := 2016, month := 12, day := 31, hour := 0, minute := 0, second := 0,
          usecond := 0, weekday := 5, tz_offset := 0 }) 0
      = { year := 2017, month := 1, day := 1, hour := 0, minute := 0, second := 0,
          usecond := 0, weekday := 5, tz_offset := 0 } ∧
    date_to_usec_since_zero
        { year := 2016, month := 12, day := 31, hour := 0, minute := 0, second := 0,
          usecond := 0, weekday := 5, tz_offset := 0 }
      = date_to_usec_since_zero
        { year := 2017, month := 1, day := 1, hour := 0, minute := 0, second := 0,
          usecond := 0, weekday := 6, tz_offset := 0 } := by
  decide

/-- C2: normalization can leave the day out of range: `make_date` turns the valid date
1 January of year -4 into day 0 of January of year -4. -/
theorem make_date_yields_day_zero :
    make_date (-4) 1 1 0 0 0 0 0
      = { year := -4, month := 1, day := 0, hour := 0, minute := 0, second := 0,
          usecond := 0, weekday := 0, tz_offset := 0 } := by
  decide

/-- C3: day overflow out of December of a leap year does not give the first day of the
next month: `make_date 2016 12 32` is 2017-01-02, not 2017-01-01. -/
theorem day_overflow_from_leap_december_skips_a_day :
    make_date 2016 12 32 0 0 0 0 0
      = { year := 2017, month := 1, day := 2, hour := 0, minute := 0, second := 0,
          usecond := 0, weekday := 6, tz_offset := 0 } := by
  decide

/-- C4: normalization is not idempotent: `make_date (-4) 1 2` is day 1 of January of
year -4, and `make_date` applied to these fields again is day 0 of that month. -/
theorem make_date_not_idempotent_in_negative_leap_year :
    make_date (-4) 1 2 0 0 0 0 0
      = { year := -4, month := 1, day := 1, hour := 0, minute := 0, second := 0,
          usecond := 0, weekday := 1, tz_offset := 0 } ∧
    make_date (make_date (-4) 1 2 0 0 0 0 0).year (make_date (-4) 1 2 0 0 0 0 0).month
        (make_date (-4) 1 2 0 0 0 0 0).day (make_date (-4) 1 2 0 0 0 0 0).hour
        (make_date (-4) 1 2 0 0 0 0 0).minute (make_date (-4) 1 2 0 0 0 0 0).second
        (make_date (-4) 1 2 0 0 0 0 0).usecond (make_date (-4) 1 2 0 0 0 0 0).tz_offset
      = { year := -4, month := 1, day := 0, hour := 0, minute := 0, second := 0,
          usecond := 0, weekday := 0, tz_offset := 0 } := by
  decide

/-- C5: timezone conversion can change the encoded instant: converting the in-range date
2015-12-31 23:30:00 (offset 0) to offset 60 gives 2016-01-01 00:30:00, whose encoding is
one day (86400000000 microseconds) later than the encoding before the call. -/
theorem timezone_conversion_changes_encoded_instant :
    convert_to_timezone
        { year := 2015, month := 12, day := 31, hour := 23, minute := 30, second := 0,
          usecond := 0, weekday := 3, tz_offset := 0 } 60
      = { year := 2016, month := 1, day := 1, hour := 0, minute := 30, second := 0,
          usecond := 0, weekday := 3, tz_offset := 60 } ∧
    date_to_usec_since_zero
        { year := 2015, month := 12, day := 31, hour := 23, minute := 30, second := 0,
          usecond := 0, weekday := 3, tz_offset := 0 } = 63618737400000000 ∧
    date_to_usec_since_zero
        (convert_to_timezone
          { year := 2015, month := 12, day := 31, hour := 23, minute := 30, second := 0,
            usecond := 0, weekday := 3, tz_offset := 0 } 60) = 63618823800000000 := by
  decide

/-- C6: `date_compare` does not order dates chronologically: for the in-range dates
a = 2017-01-01 00:00:00 and b = 2016-12-31 12:00:00 (same offset), a is later than b but
`date_compare a b` is -1. -/
theorem date_compare_misorders_around_leap_year_end :
    date_compare
        { year := 2017, month := 1, day := 1, hour := 0, minute := 0, second := 0,
          usecond := 0, weekday := 6, tz_offset := 0 }
        { year := 2016, month := 12, day := 31, hour := 12, minute := 0, second := 0,
          usecond := 0, weekday := 5, tz_offset := 0 } = -1 := by
  decide

/-- C7: the weekday that normalization derives for the UNIX epoch date is 2, while the
epoch anchor `unix_epoch` and `time_to_date 0` both say 3. -/
theorem epoch_weekday_of_make_date_disagrees_with_anchor :
    (make_date 1970 1 1 0 0 0 0 0).weekday = 2 ∧ unix_epoch.weekday = 3 ∧
    (time_to_date 0).weekday = 3 := by
  decide

/-- C8: `date_add a (difference a b)` need not be `b`: for a = 2016-12-30 and
b = 2016-12-31 (same offset) the difference is one day and the sum is 2017-01-01; and for
a = 2015-06-01 23:00:00, b = 2015-06-02 00:00:00 the difference is one hour and the sum is
2015-06-01 00:00:00 (the hour 24 is reset to 0 by `fix_date`). -/
theorem date_add_of_difference_misses_later_date :
    date_add
        { year := 2016, month := 12, day := 30, hour := 0, minute := 0, second := 0,
          usecond := 0, weekday := 4, tz_offset := 0 }
        (difference
          { year := 2016, month := 12, day := 30, hour := 0, minute := 0, second := 0,
            usecond := 0, weekday := 4, tz_offset := 0 }
          { year := 2016, month := 12, day := 31, hour := 0, minute := 0, second := 0,
            usecond := 0, weekday := 5, tz_offset := 0 })
      = { year := 2017, month := 1, day := 1, hour := 0, minute := 0, second := 0,
          usecond := 0, weekday := 5, tz_offset := 0 } ∧
    date_add
        { year := 2015, month := 6, day := 1, hour := 23, minute := 0, second := 0,
          usecond := 0, weekday := 0, tz_offset := 0 }
        (difference
          { year := 2015, month := 6, day := 1, hour := 23, minute := 0, second := 0,
            usecond := 0, weekday := 0, tz_offset := 0 }
          { year := 2015, month := 6, day := 2, hour := 0, minute := 0, second := 0,
            usecond := 0, weekday := 1, tz_offset := 0 })
      = { year := 2015, month := 6, day := 1, hour := 0, minute := 0, second := 0,
          usecond := 0, weekday := 6, tz_offset := 0 } := by
  decide

/-- The documented instance of day overflow: 2015-01-32 becomes 2015-02-01. -/
theorem make_date_2015_01_32 :
    make_date 2015 1 32 0 0 0 0 0
      = { year := 2015, month := 2, day := 1, hour := 0, minute := 0, second := 0,
          usecond := 0, weekday := 5, tz_offset := 0 } := by
  decide

/-- The offset of a converted date is the requested offset. -/
theorem convert_to_timezone_tz_offset (d : date_t) (n : Int) :
    (convert_to_timezone d n).tz_offset = n := rfl

/-! ## Claims about the integer helpers and the span decomposition -/

/-- C10: floor semantics of the integer helpers.  For every `a` and every `b > 0`,
`_div a b * b + _mod a b = a` and `0 ≤ _mod a b < b`, likewise for `_divl` and `_modl`;
so `_div`/`_divl` are floor division and `_mod`/`_modl` the non-negative remainder, also
for negative `a`. -/
theorem floor_semantics_of_integer_helpers (a b : Int) (hb : 0 < b) :
    (_div a b * b + _mod a b = a ∧ 0 ≤ _mod a b ∧ _mod a b < b) ∧
    (_divl a b * b + _modl a b = a ∧ 0 ≤ _modl a b ∧ _modl a b < b) ∧
    (_div a b = Int.fdiv a b ∧ _mod a b = Int.fmod a b) ∧
    (_divl a b = Int.fdiv a b ∧ _modl a b = Int.fmod a b) := by
  have h := floor_helpers a b hb
  have hd := div_eq_ediv a b hb
  have hm := mod_eq_emod a b hb
  have hfd := Int.fdiv_eq_ediv a hb.le
  have hfm := Int.fmod_eq_emod a hb.le
  have key : _div a b * b + _mod a b = a := by linear_combination h.1
  refine ⟨⟨key, h.2.1, h.2.2⟩, ⟨key, h.2.1, h.2.2⟩, ⟨?_, ?_⟩, ⟨?_, ?_⟩⟩
  · rw [hfd]; exact hd
  · rw [hfm]; exact hm
  · rw [hfd]; exact hd
  · rw [hfm]; exact hm

theorem floor_semantics_of_integer_helpers_witness :
    (0 : Int) < 4 ∧ _div (-7) 4 = -2 ∧ _mod (-7) 4 = 1 ∧
    ((_div (-7) 4 * 4 + _mod (-7) 4 = -7 ∧ 0 ≤ _mod (-7) 4 ∧ _mod (-7) 4 < 4) ∧
    (_divl (-7) 4 * 4 + _modl (-7) 4 = -7 ∧ 0 ≤ _modl (-7) 4 ∧ _modl (-7) 4 < 4) ∧
    (_div (-7) 4 = Int.fdiv (-7) 4 ∧ _mod (-7) 4 = Int.fmod (-7) 4) ∧
    (_divl (-7) 4 = Int.fdiv (-7) 4 ∧ _modl (-7) 4 = Int.fmod (-7) 4)) :=
  ⟨by decide, by decide, by decide, floor_semantics_of_integer_helpers (-7) 4 (by decide)⟩




/-- C9: `difference` decomposes the signed microsecond difference exactly and with
aligned signs.  With `t = usec_difference a b` whose week count fits in an `int`, the
components of `difference a b` recombine to `t`, every non-zero component has the sign of
`t`, and the magnitudes of microseconds, seconds, minutes, hours and days are below
1000000, 60, 60, 24 and 7. -/
theorem difference_decomposes_usec_difference (a b : date_t)
    (hw : -2147483648 ≤ (usec_difference a b).tdiv 604800000000 ∧
      (usec_difference a b).tdiv 604800000000 ≤ 2147483647) :
    ((((((difference a b).weeks * 7 + (difference a b).days) * 24 + (difference a b).hours) * 60
        + (difference a b).minutes) * 60 + (difference a b).seconds) * 1000000
        + (difference a b).useconds = usec_difference a b) ∧
    (∀ c ∈ [(difference a b).weeks, (difference a b).days, (difference a b).hours,
        (difference a b).minutes, (difference a b).seconds, (difference a b).useconds],
      c ≠ 0 → Int.sign c = Int.sign (usec_difference a b)) ∧
    abs (difference a b).useconds < 1000000 ∧ abs (difference a b).seconds < 60 ∧
    abs (difference a b).minutes < 60 ∧ abs (difference a b).hours < 24 ∧
    abs (difference a b).days < 7 := by
  obtain ⟨hw1, hw2⟩ := hw
  simp only [difference]
  generalize usec_difference a b = t at *
  obtain ⟨e0, p0, n0⟩ := tdiv_stage t 604800000000 (by norm_num)
  obtain ⟨e1, p1, n1⟩ := tdiv_stage t 1000000 (by norm_num)
  obtain ⟨e2, p2, n2⟩ := tdiv_stage (t.tdiv 1000000) 60 (by norm_num)
  obtain ⟨e3, p3, n3⟩ := tdiv_stage ((t.tdiv 1000000).tdiv 60) 60 (by norm_num)
  obtain ⟨e4, p4, n4⟩ := tdiv_stage (((t.tdiv 1000000).tdiv 60).tdiv 60) 24 (by norm_num)
  obtain ⟨e5, p5, n5⟩ := tdiv_stage ((((t.tdiv 1000000).tdiv 60).tdiv 60).tdiv 24) 7 (by norm_num)
  generalize t.tmod 1000000 = us at *
  generalize t.tdiv 1000000 = t1 at *
  generalize t1.tmod 60 = s at *
  generalize t1.tdiv 60 = t2 at *
  generalize t2.tmod 60 = m at *
  generalize t2.tdiv 60 = t3 at *
  generalize t3.tmod 24 = h at *
  generalize t3.tdiv 24 = t4 at *
  generalize t4.tmod 7 = d at *
  generalize t4.tdiv 7 = w at *
  generalize t.tdiv 604800000000 = w0 at *
  generalize t.tmod 604800000000 = r0 at *
  have hww : w = w0 := by
    rcases le_total 0 t with ht | ht
    · have := p0 ht; have := p1 ht; have := p2 (by omega); have := p3 (by omega)
      have := p4 (by omega); have := p5 (by omega)
      omega
    · have := n0 ht; have := n1 ht; have := n2 (by omega); have := n3 (by omega)
      have := n4 (by omega); have := n5 (by omega)
      omega
  have hfit : to_int w = w := to_int_of_fits w (by omega) (by omega)
  rw [hfit]
  have al : ∀ c ∈ [w, d, h, m, s, us], (0 ≤ t → 0 ≤ c) ∧ (t ≤ 0 → c ≤ 0) := by
    intro c hc
    simp only [List.mem_cons, List.mem_singleton, List.not_mem_nil, or_false] at hc
    constructor
    · intro ht
      have := p1 ht; have := p2 (by omega); have := p3 (by omega)
      have := p4 (by omega); have := p5 (by omega)
      rcases hc with rfl | rfl | rfl | rfl | rfl | rfl <;> omega
    · intro ht
      have := n1 ht; have := n2 (by omega); have := n3 (by omega)
      have := n4 (by omega); have := n5 (by omega)
      rcases hc with rfl | rfl | rfl | rfl | rfl | rfl <;> omega
  refine ⟨by omega, fun c hc hne => sign_eq_of_aligned c t (al c hc).1 (al c hc).2 hne, ?_⟩
  rcases le_total 0 t with ht | ht
  · have := p1 ht; have := p2 (by omega); have := p3 (by omega)
    have := p4 (by omega); have := p5 (by omega)
    refine ⟨?_, ?_, ?_, ?_, ?_⟩ <;> rw [abs_lt] <;> omega
  · have := n1 ht; have := n2 (by omega); have := n3 (by omega)
    have := n4 (by omega); have := n5 (by omega)
    refine ⟨?_, ?_, ?_, ?_, ?_⟩ <;> rw [abs_lt] <;> omega


theorem difference_decomposes_usec_difference_witness :
    (-2147483648 ≤ (usec_difference caesars_assasitation pearl_harbor).tdiv 604800000000 ∧
      (usec_difference caesars_assasitation pearl_harbor).tdiv 604800000000 ≤ 2147483647) ∧
    (((((((difference caesars_assasitation pearl_harbor).weeks * 7
          + (difference caesars_assasitation pearl_harbor).days) * 24
          + (difference caesars_assasitation pearl_harbor).hours) * 60
          + (difference caesars_assasitation pearl_harbor).minutes) * 60
          + (difference caesars_assasitation pearl_harbor).seconds) * 1000000
          + (difference caesars_assasitation pearl_harbor).useconds
        = usec_difference caesars_assasitation pearl_harbor) ∧
      (∀ c ∈ [(difference caesars_assasitation pearl_harbor).weeks,
          (difference caesars_assasitation pearl_harbor).days,
          (difference caesars_assasitation pearl_harbor).hours,
          (difference caesars_assasitation pearl_harbor).minutes,
          (difference caesars_assasitation pearl_harbor).seconds,
          (difference caesars_assasitation pearl_harbor).useconds],
        c ≠ 0 → Int.sign c = Int.sign (usec_difference caesars_assasitation pearl_harbor)) ∧
      abs (difference caesars_assasitation pearl_harbor).useconds < 1000000 ∧
      abs (difference caesars_assasitation pearl_harbor).seconds < 60 ∧
      abs (difference caesars_assasitation pearl_harbor).minutes < 60 ∧
      abs (difference caesars_assasitation pearl_harbor).hours < 24 ∧
      abs (difference caesars_assasitation pearl_harbor).days < 7) :=
  ⟨⟨by decide, by decide⟩,
    difference_decomposes_usec_difference caesars_assasitation pearl_harbor
      ⟨by decide, by decide⟩⟩

/-! ## Easter -/

theorem easter_in_year_code (date : date_t) (n : Nat) (hY : date.year = n) :
    (easter_in_year date).month = (easter_code n / 32 : Nat) + 3 ∧
    (easter_in_year date).day = (easter_code n : Nat) - (easter_code n / 32 : Nat) * 31 := by
  have h19 : ∀ x : Int, _mod x 19 = x % 19 := fun x => mod_eq_emod x 19 (by norm_num)
  have h7 : ∀ x : Int, _mod x 7 = x % 7 := fun x => mod_eq_emod x 7 (by norm_num)
  have h30 : ∀ x : Int, _mod x 30 = x % 30 := fun x => mod_eq_emod x 30 (by norm_num)
  have hb : (0 : Int) ≤ (n : Int) / 4 := by omega
  have hc : (0 : Int) ≤ ((n : Int) / 4 / 25 + 1) * 8 + 5 := by omega
  simp only [easter_in_year, hY, h19, h7, h30, shift_right, easter_code]
  norm_num only
  rw [Int.tdiv_eq_ediv hb (by norm_num), Int.tdiv_eq_ediv hc (by norm_num)]
  have e1 : (n : Int) % 19 = ((n % 19 : Nat) : Int) := by omega
  have e2 : (n : Int) % 7 = ((n % 7 : Nat) : Int) := by omega
  have e3 : (n : Int) / 4 = ((n / 4 : Nat) : Int) := by omega
  rw [e1, e2, e3]
  have ha : n % 19 < 19 := by omega
  have hw : n % 7 < 7 := by omega
  generalize n % 19 = a at *
  generalize n % 7 = w at *
  generalize n / 4 = b at *
  have e4 : ((b : Int) / 25 + 1) * 3 / 4 = (((b / 25 + 1) * 3 / 4 : Nat) : Int) := by omega
  have e5 : (((b : Int) / 25 + 1) * 8 + 5) / 25 = ((((b / 25 + 1) * 8 + 5) / 25 : Nat) : Int) := by
    omega
  rw [e4, e5]
  have hd : (b / 25 + 1) * 3 / 4 ≤ b := by omega
  have hd2 : ((b / 25 + 1) * 8 + 5) / 25 ≤ (b / 25 + 1) * 3 / 4 + 15 := by omega
  generalize (b / 25 + 1) * 3 / 4 = d at *
  generalize ((b / 25 + 1) * 8 + 5) / 25 = f at *
  have e6 : ((a : Int) * 19 - f + d + 15) % 30 = (((a * 19 + d + 15 - f) % 30 : Nat) : Int) := by
    omega
  rw [e6]
  have he : (a * 19 + d + 15 - f) % 30 < 30 := by omega
  generalize (a * 19 + d + 15 - f) % 30 = e at *
  have e7 : (29578 - (a : Int) - e * 32) / 1024 = (((29578 - a - e * 32) / 1024 : Nat) : Int) := by
    omega
  rw [e7]
  have hg : 27 ≤ (29578 - a - e * 32) / 1024 := by omega
  generalize (29578 - a - e * 32) / 1024 = g at *
  have e8 : ((w : Int) + b - d + (e + g) + 2) % 7 = (((w + b - d + (e + g) + 2) % 7 : Nat) : Int) := by
    omega
  rw [e8]
  have hk : (w + b - d + (e + g) + 2) % 7 < 7 := by omega
  generalize (w + b - d + (e + g) + 2) % 7 = k at *
  constructor <;> omega

theorem meeus_easter_code (n : Nat) :
    meeus_easter n = (((meeus_code n / 31 : Nat) : Int), ((meeus_code n % 31 : Nat) : Int) + 1) := by
  simp only [meeus_easter, meeus_code]
  have e1 : (n : Int) % 19 = ((n % 19 : Nat) : Int) := by omega
  have e2 : (n : Int) / 100 = ((n / 100 : Nat) : Int) := by omega
  have e3 : (n : Int) % 100 = ((n % 100 : Nat) : Int) := by omega
  rw [e1, e2, e3]
  have ha : n % 19 < 19 := by omega
  have hc : n % 100 < 100 := by omega
  generalize n % 19 = a at *
  generalize n / 100 = b at *
  generalize n % 100 = c at *
  have e4 : ((b : Int) - ((b : Int) + 8) / 25 + 1) / 3 = (((b + 1 - (b + 8) / 25) / 3 : Nat) : Int) := by
    omega
  have e5 : (b : Int) / 4 = ((b / 4 : Nat) : Int) := by omega
  have e6 : (b : Int) % 4 = ((b % 4 : Nat) : Int) := by omega
  have e7 : (c : Int) / 4 = ((c / 4 : Nat) : Int) := by omega
  have e8 : (c : Int) % 4 = ((c % 4 : Nat) : Int) := by omega
  rw [e4, e5, e6, e7, e8]
  have hg : b / 4 + (b + 1 - (b + 8) / 25) / 3 ≤ b + 15 := by omega
  have he : b % 4 < 4 := by omega
  have hi : c / 4 < 25 := by omega
  have hk : c % 4 < 4 := by omega
  generalize (b + 1 - (b + 8) / 25) / 3 = g at *
  generalize b / 4 = d at *
  generalize b % 4 = e at *
  generalize c / 4 = i at *
  generalize c % 4 = k at *
  have e9 : (19 * (a : Int) + b - d - g + 15) % 30 = (((19 * a + b + 15 - d - g) % 30 : Nat) : Int) := by
    omega
  rw [e9]
  have hh : (19 * a + b + 15 - d - g) % 30 < 30 := by omega
  generalize (19 * a + b + 15 - d - g) % 30 = h at *
  have e10 : (32 + 2 * (e : Int) + 2 * i - h - k) % 7 = (((32 + 2 * e + 2 * i - h - k) % 7 : Nat) : Int) := by
    omega
  rw [e10]
  have hl : (32 + 2 * e + 2 * i - h - k) % 7 < 7 := by omega
  generalize (32 + 2 * e + 2 * i - h - k) % 7 = l at *
  have e11 : ((a : Int) + 11 * h + 22 * l) / 451 = (((a + 11 * h + 22 * l) / 451 : Nat) : Int) := by
    omega
  rw [e11]
  have hm : (a + 11 * h + 22 * l) / 451 ≤ 1 := by omega
  generalize (a + 11 * h + 22 * l) / 451 = m at *
  refine Prod.ext ?_ ?_ <;> simp only <;> omega

theorem all_from_spec (p : Nat → Bool) : ∀ (n start : Nat),
    all_from p n start = true → ∀ k : Nat, start ≤ k → k < start + n → p k = true
  | 0, start, _, k, h1, h2 => by omega
  | n + 1, start, h, k, h1, h2 => by
    simp only [all_from, Bool.and_eq_true] at h
    by_cases hk : k = start
    · rw [hk]; exact h.1
    · exact all_from_spec p n (start + 1) h.2 k (by omega) (by omega)

set_option maxRecDepth 1000000 in
theorem easter_agrees_1583_to_9999 : all_from easter_agrees 8417 1583 = true := by
  decide!

/-- C13: `easter_in_year` computes Gregorian Easter Sunday.  For every date whose year `Y`
is in 1583..9999 the month and day written by `easter_in_year` are those of the
Meeus/Jones/Butcher algorithm `meeus_easter Y`, and every other field is unchanged. -/
theorem easter_in_year_is_meeus_easter (date : date_t) (h1 : 1583 ≤ date.year)
    (h2 : date.year ≤ 9999) :
    ((easter_in_year date).month, (easter_in_year date).day) = meeus_easter date.year ∧
    (easter_in_year date).year = date.year ∧ (easter_in_year date).hour = date.hour ∧
    (easter_in_year date).minute = date.minute ∧
    (easter_in_year date).second = date.second ∧
    (easter_in_year date).usecond = date.usecond ∧
    (easter_in_year date).weekday = date.weekday ∧
    (easter_in_year date).tz_offset = date.tz_offset := by
  refine ⟨?_, rfl, rfl, rfl, rfl, rfl, rfl, rfl⟩
  obtain ⟨n, hn⟩ := Int.eq_ofNat_of_zero_le (show (0 : Int) ≤ date.year by omega)
  obtain ⟨hm, hd⟩ := easter_in_year_code date n hn
  have hok := all_from_spec easter_agrees 8417 1583 easter_agrees_1583_to_9999 n
    (by omega) (by omega)
  simp only [easter_agrees, Bool.and_eq_true, Nat.beq_eq, Nat.blt_eq] at hok
  obtain ⟨⟨hN, hpos⟩, hlt⟩ := hok
  rw [hm, hd, hn, meeus_easter_code n]
  generalize easter_code n = e at *
  generalize meeus_code n = N at *
  refine Prod.ext ?_ ?_ <;> simp only <;> omega

theorem easter_in_year_is_meeus_easter_witness :
    (1583 : Int) ≤ (date_of_year 2015).year ∧ (date_of_year 2015).year ≤ 9999 ∧
    (easter_in_year (date_of_year 2015)).month = 4 ∧
    (easter_in_year (date_of_year 2015)).day = 5 ∧
    meeus_easter 2015 = (4, 5) ∧
    ((easter_in_year (date_of_year 2015)).month, (easter_in_year (date_of_year 2015)).day)
      = meeus_easter (date_of_year 2015).year :=
  ⟨by decide, by decide, by decide, by decide, by decide,
    (easter_in_year_is_meeus_easter (date_of_year 2015) (by decide) (by decide)).1⟩

/-! ## Claims about the calendar primitives and derivations -/

/-- C11: the leap count step fails at year 0 and at negative years: year 0 is a leap year
for `is_leap_year`, but `leap_years_before 1 - leap_years_before 0` is 0; likewise year -4
is a leap year with step 0, and year -3 is not a leap year but has step 1. -/
theorem leap_count_step_fails_at_year_zero :
    (leap_years_before (0 + 1) - leap_years_before 0 = 0 ∧ is_leap_year 0 = true) ∧
    (leap_years_before (-4 + 1) - leap_years_before (-4) = 0 ∧ is_leap_year (-4) = true) ∧
    (leap_years_before (-3 + 1) - leap_years_before (-3) = 1 ∧ is_leap_year (-3) = false) := by
  decide

/-- The leap count step holds for every year from 1 on. -/
theorem leap_count_step_of_pos (y : Int) (h : 1 ≤ y) :
    leap_years_before (y + 1) - leap_years_before y = if is_leap_year y then 1 else 0 := by
  have h0 : (0 : Int) ≤ y := by omega
  have h1 : (0 : Int) ≤ y - 1 := by omega
  simp only [leap_years_before, is_leap_year, add_sub_cancel_right,
    Int.tdiv_eq_ediv h0 (by norm_num : (0 : Int) ≤ 4),
    Int.tdiv_eq_ediv h0 (by norm_num : (0 : Int) ≤ 100),
    Int.tdiv_eq_ediv h0 (by norm_num : (0 : Int) ≤ 400),
    Int.tdiv_eq_ediv h1 (by norm_num : (0 : Int) ≤ 4),
    Int.tdiv_eq_ediv h1 (by norm_num : (0 : Int) ≤ 100),
    Int.tdiv_eq_ediv h1 (by norm_num : (0 : Int) ≤ 400),
    Int.tmod_eq_emod h0 (by norm_num : (0 : Int) ≤ 4),
    Int.tmod_eq_emod h0 (by norm_num : (0 : Int) ≤ 100),
    Int.tmod_eq_emod h0 (by norm_num : (0 : Int) ≤ 400)]
  by_cases h4 : y % 4 = 0 <;> by_cases h100 : y % 100 = 0 <;>
    by_cases h400 : y % 400 = 0 <;> simp only [h4, h100, h400, ne_eq, not_true_eq_false,
      not_false_eq_true, if_true, if_false, Bool.false_eq_true] <;> omega

/-- C12: `century` of a negative year is not `(-y)/100 + 1`: `century (-43)` is -1 (the
claim says 1) and `century (-150)` is 0 (the claim says 2). -/
theorem century_of_negative_year :
    century (-43) = -1 ∧ century (-150) = 0 ∧ (43 : Int).tdiv 100 + 1 = 1 ∧
    (150 : Int).tdiv 100 + 1 = 2 := by
  decide

/-- For a positive year, `century` is `(y - 1) / 100 + 1`. -/
theorem century_of_pos (y : Int) (h : 0 < y) : century y = (y - 1) / 100 + 1 := by
  have h1 : (0 : Int) ≤ y - 1 := by omega
  have h2 : ¬ y < 0 := by omega
  simp only [century, h2, if_false, Int.tdiv_eq_ediv h1 (by norm_num : (0 : Int) ≤ 100)]

/-- C14: the ISO week numbers that the code gives for the documented boundary dates:
52 for 2015-01-01 (documented 1), 52 for 2016-01-01 (documented 53) and 52 for
2015-12-31 (documented 53). -/
theorem iso_week_number_of_documented_dates :
    iso_week_number (make_date 2015 1 1 0 0 0 0 0) = 52 ∧
    iso_week_number (make_date 2016 1 1 0 0 0 0 0) = 52 ∧
    iso_week_number (make_date 2015 12 31 0 0 0 0 0) = 52 := by
  decide

/-- C15: for 2015-12-31 with weekday 3 (Thursday), whose week has its Thursday in 2015,
`iso_week_numbering_year` is 2016; and for 2016-01-01 with weekday 4 (Friday), whose week
has its Thursday in 2015, it is 2016. -/
theorem iso_week_numbering_year_of_thursday_dec_31 :
    iso_week_numbering_year
        { year := 2015, month := 12, day := 31, hour := 0, minute := 0, second := 0,
          usecond := 0, weekday := 3, tz_offset := 0 } = 2016 ∧
    iso_week_numbering_year
        { year := 2016, month := 1, day := 1, hour := 0, minute := 0, second := 0,
          usecond := 0, weekday := 4, tz_offset := 0 } = 2016 := by
  decide

/-! ## Lemmas: the codec on dates of one year, and the ISO week number -/

theorem year_of_year_start (Y r : Int) (h0 : 0 ≤ r) (h1 : r ≤ 364) :
    year_of_days (year_start Y + r) = Y ∧ rem_of_days (year_start Y + r) = r := by
  obtain ⟨q, c, f, y, hY, hc0, hc1, hf0, hf1, hy0, hy1⟩ :
      ∃ q c f y : Int, Y = 400 * q + 100 * c + 4 * f + y ∧ 0 ≤ c ∧ c ≤ 3 ∧ 0 ≤ f ∧ f ≤ 24 ∧
        0 ≤ y ∧ y ≤ 3 :=
    ⟨Y / 400, Y % 400 / 100, Y % 100 / 4, Y % 4, by omega, by omega, by omega, by omega,
      by omega, by omega, by omega⟩
  have e4 : Y / 4 = 100 * q + 25 * c + f := by omega
  have e100 : Y / 100 = 4 * q + c := by omega
  have e400 : Y / 400 = q := by omega
  generalize hD : year_start Y + r = D
  have hD2 : D = 146097 * q + 36524 * c + 1461 * f + 365 * y + r := by
    rw [← hD, year_start, e4, e100, e400, hY]
    ring
  have d1 : D / 146097 = q := by omega
  have m1 : D % 146097 = 36524 * c + 1461 * f + 365 * y + r := by omega
  have d2 : D % 146097 / 36524 = c := by rw [m1]; omega
  have m2 : D % 146097 % 36524 = 1461 * f + 365 * y + r := by rw [m1]; omega
  have d3 : D % 146097 % 36524 / 1461 = f := by rw [m2]; omega
  have m3 : D % 146097 % 36524 % 1461 = 365 * y + r := by rw [m2]; omega
  have d4 : D % 146097 % 36524 % 1461 / 365 = y := by rw [m3]; omega
  have m4 : D % 146097 % 36524 % 1461 % 365 = r := by rw [m3]; omega
  unfold year_of_days rem_of_days
  rw [d1, d2, d3, d4, m4, hY]
  exact ⟨rfl, rfl⟩

theorem year_of_day_before_leap_year (Y : Int) (h4 : Y % 4 = 0)
    (h100 : Y % 100 ≠ 0 ∨ Y % 400 = 0) :
    year_of_days (year_start Y - 1) = Y ∧ rem_of_days (year_start Y - 1) = 0 := by
  obtain ⟨q, c, f, hY, hc0, hc1, hf0, hf1⟩ :
      ∃ q c f : Int, Y = 400 * q + 100 * c + 4 * f ∧ 0 ≤ c ∧ c ≤ 3 ∧ 0 ≤ f ∧ f ≤ 24 :=
    ⟨Y / 400, Y % 400 / 100, Y % 100 / 4, by omega, by omega, by omega, by omega, by omega⟩
  have e4 : Y / 4 = 100 * q + 25 * c + f := by omega
  have e100 : Y / 100 = 4 * q + c := by omega
  have e400 : Y / 400 = q := by omega
  generalize hD : year_start Y - 1 = D
  have hD2 : D = 146097 * q + 36524 * c + 1461 * f - 1 := by
    rw [← hD, year_start, e4, e100, e400, hY]
    ring
  unfold year_of_days rem_of_days
  by_cases hf : 1 ≤ f
  · have d1 : D / 146097 = q := by omega
    have m1 : D % 146097 = 36524 * c + 1461 * (f - 1) + 1460 := by omega
    have d2 : D % 146097 / 36524 = c := by rw [m1]; omega
    have m2 : D % 146097 % 36524 = 1461 * (f - 1) + 1460 := by rw [m1]; omega
    have d3 : D % 146097 % 36524 / 1461 = f - 1 := by rw [m2]; omega
    have m3 : D % 146097 % 36524 % 1461 = 1460 := by rw [m2]; omega
    rw [d1, d2, d3, m3, hY]
    exact ⟨by norm_num; ring, by norm_num⟩
  · have hf0' : f = 0 := by omega
    have hc : c = 0 := by omega
    subst hf0' hc
    have d1 : D / 146097 = q - 1 := by omega
    have m1 : D % 146097 = 146096 := by omega
    rw [d1, m1, hY]
    exact ⟨by norm_num; ring, by norm_num⟩

theorem wall_usec_range (d : date_t) (h : time_in_range d) :
    0 ≤ wall_usec d ∧ wall_usec d < 86400000000 := by
  obtain ⟨⟨a1, a2⟩, ⟨b1, b2⟩, ⟨c1, c2⟩, ⟨d1, d2⟩⟩ := h
  unfold wall_usec
  constructor <;> omega

theorem date_to_usec_since_zero_eq (f : date_t) :
    date_to_usec_since_zero f
      = wall_usec f - f.tz_offset * 60000000
        + (months_loop f.year f.month.toNat f.month (f.day - 1)
            + (f.year * 365 + leap_years_before (f.year + 1))) * 86400000000 := by
  unfold date_to_usec_since_zero wall_usec
  ring

theorem decode_of_day_and_wall (Dx W tz : Int) (hW0 : 0 ≤ W) (hW1 : W < 86400000000) :
    (usec_since_zero_to_date (W - tz * 60000000 + Dx * 86400000000) tz).year
      = year_of_days Dx ∧
    (usec_since_zero_to_date (W - tz * 60000000 + Dx * 86400000000) tz).month
      = (month_walk (year_of_days Dx) 12 (rem_of_days Dx) 1).2 ∧
    (usec_since_zero_to_date (W - tz * 60000000 + Dx * 86400000000) tz).day
      = (month_walk (year_of_days Dx) 12 (rem_of_days Dx) 1).1
        + (if year_of_days Dx < 0 then 0 else 1) := by
  obtain ⟨c1, c4, c100, c400⟩ := cycle_values
  have hd : _divl (W - tz * 60000000 + Dx * 86400000000 + tz * 60000000) 86400000000 = Dx := by
    rw [divl_eq_ediv _ _ (by norm_num)]
    omega
  have hy : (0 : Int) + 400 * _divl Dx 146097 + 100 * _divl (_modl Dx 146097) 36524
      + 4 * _divl (_modl (_modl Dx 146097) 36524) 1461
      + 1 * _divl (_modl (_modl (_modl Dx 146097) 36524) 1461) 365 = year_of_days Dx := by
    simp only [divl_eq_ediv _ _ (show (0 : Int) < 146097 by norm_num),
      divl_eq_ediv _ _ (show (0 : Int) < 36524 by norm_num),
      divl_eq_ediv _ _ (show (0 : Int) < 1461 by norm_num),
      divl_eq_ediv _ _ (show (0 : Int) < 365 by norm_num),
      modl_eq_emod _ _ (show (0 : Int) < 146097 by norm_num),
      modl_eq_emod _ _ (show (0 : Int) < 36524 by norm_num),
      modl_eq_emod _ _ (show (0 : Int) < 1461 by norm_num), year_of_days]
    ring
  have hr : _modl (_modl (_modl (_modl Dx 146097) 36524) 1461) 365 = rem_of_days Dx := by
    simp only [modl_eq_emod _ _ (show (0 : Int) < 146097 by norm_num),
      modl_eq_emod _ _ (show (0 : Int) < 36524 by norm_num),
      modl_eq_emod _ _ (show (0 : Int) < 1461 by norm_num),
      modl_eq_emod _ _ (show (0 : Int) < 365 by norm_num), rem_of_days]
  simp only [usec_since_zero_to_date, c1, c4, c100, c400, hd, hy, hr]
  exact ⟨trivial, trivial, trivial⟩

theorem encoder_shift_cases (Y : Int) :
    (0 ≤ Y → encoder_shift Y = 0) ∧
    (Y < 0 → is_leap_year Y = true →
      encoder_shift Y = 0 ∧ Y % 4 = 0 ∧ (Y % 100 ≠ 0 ∨ Y % 400 = 0)) ∧
    (Y < 0 → is_leap_year Y = false → encoder_shift Y = 1) := by
  have e : Y + 1 - 1 = Y := by ring
  unfold encoder_shift leap_years_before year_start is_leap_year
  simp only [e]
  rcases tdiv_tmod_cases Y 4 (by norm_num) with ⟨a0, a1, a2⟩ | ⟨a0, a1, a2⟩ <;>
  rcases tdiv_tmod_cases Y 100 (by norm_num) with ⟨b0, b1, b2⟩ | ⟨b0, b1, b2⟩ <;>
  rcases tdiv_tmod_cases Y 400 (by norm_num) with ⟨c0, c1, c2⟩ | ⟨c0, c1, c2⟩ <;>
  first
    | omega
    | (rw [a1, a2, b1, b2, c1, c2]
       refine ⟨fun h => by omega, fun h hl => ?_, fun h hl => ?_⟩
       · split_ifs at hl <;> first | exact absurd hl (by decide) | omega
       · split_ifs at hl <;> first | exact absurd hl (by decide) | omega)

theorem month_walk_small (Y R : Int) (h1 : R ≤ 30) : month_walk Y 12 R 1 = (R, 1) := by
  have h31 := (month_lengths_values (is_leap_year Y)).1
  have hc : ¬ R ≥ month_lengths (is_leap_year Y) (1 - 1) := by
    norm_num
    rw [h31]
    omega
  rw [month_walk, if_neg hc]

theorem convert_to_timezone_eq (f : date_t) (hm : f.month = 1) :
    convert_to_timezone f f.tz_offset
      = usec_since_zero_to_date
          (wall_usec f - f.tz_offset * 60000000
            + (year_start f.year + (f.day - 1 + encoder_shift f.year)) * 86400000000)
          f.tz_offset := by
  have hl : months_loop f.year (1 : Int).toNat 1 (f.day - 1) = f.day - 1 := by
    simp [months_loop]
  unfold convert_to_timezone
  simp only
  rw [date_to_usec_since_zero_eq, hm, hl]
  congr 1
  unfold encoder_shift
  ring

/-- Normalizing a January date: when the day count lands in the first 31 days of the
decoder's year the result is a January date of the same year, and the day before the
decoder's start of a leap year is still decoded into that year. -/
theorem convert_january (f : date_t) (hm : f.month = 1) (ht : time_in_range f) :
    (0 ≤ f.day - 1 + encoder_shift f.year → f.day - 1 + encoder_shift f.year ≤ 30 →
      (convert_to_timezone f f.tz_offset).year = f.year ∧
      (convert_to_timezone f f.tz_offset).month = 1 ∧
      (convert_to_timezone f f.tz_offset).day
        = f.day - 1 + encoder_shift f.year + (if f.year < 0 then 0 else 1)) ∧
    (f.day - 1 + encoder_shift f.year = -1 → f.year % 4 = 0 →
      (f.year % 100 ≠ 0 ∨ f.year % 400 = 0) →
      (convert_to_timezone f f.tz_offset).year = f.year) := by
  obtain ⟨w0, w1⟩ := wall_usec_range f ht
  obtain ⟨dy, dm, dd⟩ := decode_of_day_and_wall
    (year_start f.year + (f.day - 1 + encoder_shift f.year)) (wall_usec f) f.tz_offset w0 w1
  rw [convert_to_timezone_eq f hm]
  constructor
  · intro h0 h1
    obtain ⟨ey, er⟩ := year_of_year_start f.year (f.day - 1 + encoder_shift f.year) h0
      (by omega)
    rw [dy, dm, dd, ey, er, month_walk_small _ _ h1]
    exact ⟨rfl, rfl, rfl⟩
  · intro h h4 h100
    obtain ⟨ey, _⟩ := year_of_day_before_leap_year f.year h4 h100
    rw [dy, h]
    exact ey

theorem month_lengths_nonneg (leap : Bool) (i : Int) : 0 ≤ month_lengths leap i := by
  unfold month_lengths
  split_ifs with h
  · obtain ⟨n, rfl⟩ := Int.eq_ofNat_of_zero_le h
    simp only [Int.toNat_ofNat]
    by_cases hn : n < 12
    · interval_cases n <;> cases leap <;> decide
    · have hl : (month_lengths_row leap).length ≤ n := by
        cases leap <;> simp [month_lengths_row] <;> omega
      rw [List.getD_eq_default _ _ hl]
  · exact le_refl _

theorem months_loop_add (Y : Int) : ∀ (fuel : Nat) (m a b : Int),
    months_loop Y fuel m (a + b) = a + months_loop Y fuel m b
  | 0, m, a, b => by simp [months_loop]
  | fuel + 1, m, a, b => by
    rw [months_loop, months_loop]
    split_ifs
    · rw [add_assoc]
      exact months_loop_add Y fuel _ _ _
    · rfl

theorem months_loop_ge (Y : Int) : ∀ (fuel : Nat) (m x : Int), x ≤ months_loop Y fuel m x
  | 0, m, x => by simp [months_loop]
  | fuel + 1, m, x => by
    rw [months_loop]
    split_ifs
    · have h1 := months_loop_ge Y fuel (m - 1) (x + month_lengths (is_leap_year Y) (m - 1 - 1))
      have h2 := month_lengths_nonneg (is_leap_year Y) (m - 1 - 1)
      omega
    · exact le_refl _

theorem day_of_year_le (Y m x : Int) (h1 : 1 ≤ m) (h2 : m ≤ 12)
    (hx : x ≤ month_lengths (is_leap_year Y) (m - 1)) :
    months_loop Y m.toNat m x ≤ 366 := by
  obtain ⟨m0, m1, m2, m3, m4, m5, m6, m7, m8, m9, m10, m11⟩ :=
    month_lengths_values (is_leap_year Y)
  have hf : (if is_leap_year Y = true then (29 : Int) else 28) ≤ 29 := by split_ifs <;> omega
  interval_cases m <;> norm_num [months_loop] at hx ⊢ <;>
    simp only [m0, m1, m2, m3, m4, m5, m6, m7, m8, m9, m10, m11] at hx ⊢ <;> omega

theorem fix_date_eq (f : date_t) (h : f.hour ≠ 24) :
    fix_date f = convert_to_timezone f f.tz_offset := by
  unfold fix_date
  simp only [h, if_false]

theorem convert_to_timezone_ranges (f : date_t) (tz : Int) :
    time_in_range (convert_to_timezone f tz) ∧
    (0 ≤ (convert_to_timezone f tz).weekday ∧ (convert_to_timezone f tz).weekday ≤ 6) ∧
    0 ≤ (convert_to_timezone f tz).day ∧ (convert_to_timezone f tz).tz_offset = tz := by
  have h := usec_since_zero_to_date_ranges (date_to_usec_since_zero f) tz
  obtain ⟨_, hh, hmi, hs, hu, hw, _, hd1, hd2⟩ := h
  refine ⟨⟨hh, hmi, hs, hu⟩, hw, ?_, rfl⟩
  by_cases hy : 0 ≤ (usec_since_zero_to_date (date_to_usec_since_zero f) tz).year
  · have := (hd1 hy).1
    show 0 ≤ (usec_since_zero_to_date (date_to_usec_since_zero f) tz).day
    omega
  · exact (hd2 (by omega)).1

theorem iso_week_number_unfold (d : date_t) :
    iso_week_number d
      = if date_compare
            (fix_date { fix_date { d with day := 1, month := 1 } with
              day := (fix_date { d with day := 1, month := 1 }).day
                + _mod ((fix_date { d with day := 1, month := 1 }).weekday - 3) 7 }) d = 1
        then (if is_leap_year (d.year - 1) then 53 else 52)
        else (day_of_year d - (fix_date { fix_date { d with day := 1, month := 1 } with
              day := (fix_date { d with day := 1, month := 1 }).day
                + _mod ((fix_date { d with day := 1, month := 1 }).weekday - 3) 7 }).day).tdiv 7
          + 1 := rfl

theorem encoder_shift_range (Y : Int) : 0 ≤ encoder_shift Y ∧ encoder_shift Y ≤ 1 := by
  obtain ⟨s0, s1, s2⟩ := encoder_shift_cases Y
  by_cases h : 0 ≤ Y
  · have := s0 h
    omega
  · cases hl : is_leap_year Y
    · have := s2 (by omega) hl
      omega
    · have := (s1 (by omega) hl).1
      omega

/-- The first fix of `iso_week_number`: 1 January of the year of a decoded date is
normalized to a January date of the same year. -/
theorem first_of_year_fixed (d : date_t) (ht : time_in_range d) :
    (fix_date { d with day := 1, month := 1 }).year = d.year ∧
    (fix_date { d with day := 1, month := 1 }).month = 1 ∧
    (fix_date { d with day := 1, month := 1 }).day
      = encoder_shift d.year + (if d.year < 0 then 0 else 1) ∧
    time_in_range (fix_date { d with day := 1, month := 1 }) ∧
    (0 ≤ (fix_date { d with day := 1, month := 1 }).weekday ∧
      (fix_date { d with day := 1, month := 1 }).weekday ≤ 6) ∧
    (fix_date { d with day := 1, month := 1 }).tz_offset = d.tz_offset := by
  have h24 : ({ d with day := 1, month := 1 } : date_t).hour ≠ 24 := by
    show d.hour ≠ 24
    have := ht.1.2
    omega
  obtain ⟨sr0, sr1⟩ := encoder_shift_range d.year
  rw [fix_date_eq _ h24]
  obtain ⟨cj, _⟩ := convert_january { d with day := 1, month := 1 } rfl ht
  obtain ⟨a, b, c⟩ := cj (by show 0 ≤ (1 : Int) - 1 + encoder_shift d.year; omega)
    (by show (1 : Int) - 1 + encoder_shift d.year ≤ 30; omega)
  obtain ⟨r1, r2, _, r4⟩ := convert_to_timezone_ranges { d with day := 1, month := 1 } d.tz_offset
  refine ⟨a, b, ?_, r1, r2, r4⟩
  rw [c]
  show (1 : Int) - 1 + encoder_shift d.year + _ = _
  ring

/-- The second fix of `iso_week_number`: moving the fixed 1 January forward by up to six
days and normalizing again stays in the same year. -/
theorem first_of_year_moved (f : date_t) (k : Int) (hm : f.month = 1)
    (hd : f.day = encoder_shift f.year + (if f.year < 0 then 0 else 1))
    (ht : time_in_range f) (hk0 : 0 ≤ k) (hk1 : k ≤ 6) :
    (fix_date { f with day := f.day + k }).year = f.year ∧
    time_in_range (fix_date { f with day := f.day + k }) ∧
    0 ≤ (fix_date { f with day := f.day + k }).day ∧
    (fix_date { f with day := f.day + k }).tz_offset = f.tz_offset := by
  have h24 : ({ f with day := f.day + k } : date_t).hour ≠ 24 := by
    show f.hour ≠ 24
    have := ht.1.2
    omega
  rw [fix_date_eq _ h24]
  obtain ⟨r1, _, r3, r4⟩ := convert_to_timezone_ranges { f with day := f.day + k } f.tz_offset
  refine ⟨?_, r1, r3, r4⟩
  obtain ⟨cj1, cj2⟩ := convert_january { f with day := f.day + k } hm ht
  obtain ⟨s0, s1, s2⟩ := encoder_shift_cases f.year
  have e : ({ f with day := f.day + k } : date_t).day - 1
      + encoder_shift ({ f with day := f.day + k } : date_t).year
      = f.day + k - 1 + encoder_shift f.year := rfl
  rw [e] at cj1 cj2
  by_cases hy : 0 ≤ f.year
  · have hs := s0 hy
    have hn : ¬ f.year < 0 := by omega
    rw [if_neg hn] at hd
    exact (cj1 (by omega) (by omega)).1
  · have hn : f.year < 0 := by omega
    rw [if_pos hn] at hd
    cases hl : is_leap_year f.year
    · have hs := s2 hn hl
      exact (cj1 (by omega) (by omega)).1
    · obtain ⟨hs, h4, h100⟩ := s1 hn hl
      by_cases hk : k = 0
      · exact cj2 (by omega) h4 h100
      · exact (cj1 (by omega) (by omega)).1

theorem date_to_usec_since_zero_day_of_year (f : date_t) :
    date_to_usec_since_zero f
      = wall_usec f - f.tz_offset * 60000000
        + (day_of_year f - 1 + (f.year * 365 + leap_years_before (f.year + 1)))
          * 86400000000 := by
  have h := months_loop_add f.year f.month.toNat f.month (-1) f.day
  rw [date_to_usec_since_zero_eq]
  unfold day_of_year
  simp only
  have e : f.day - 1 = -1 + f.day := by ring
  rw [e, h]
  ring

/-- The ISO week number of every decoded date is between 1 and 53. -/
theorem iso_week_number_of_decoded (u tz : Int) :
    1 ≤ iso_week_number (usec_since_zero_to_date u tz) ∧
    iso_week_number (usec_since_zero_to_date u tz) ≤ 53 := by
  have R := usec_since_zero_to_date_ranges u tz
  generalize usec_since_zero_to_date u tz = d at R ⊢
  obtain ⟨⟨hm1, hm2⟩, hh, hmi, hs, hu, _, _, hday1, hday2⟩ := R
  have ht : time_in_range d := ⟨hh, hmi, hs, hu⟩
  have hdlen : d.day ≤ month_lengths (is_leap_year d.year) (d.month - 1) := by
    by_cases hy : 0 ≤ d.year
    · exact (hday1 hy).2
    · exact le_of_lt (hday2 (by omega)).2
  obtain ⟨a1, a2, a3, a4, a5, a6⟩ := first_of_year_fixed d ht
  obtain ⟨_, k0, k1⟩ := floor_helpers ((fix_date { d with day := 1, month := 1 }).weekday - 3) 7
    (by norm_num)
  rw [iso_week_number_unfold]
  generalize fix_date { d with day := 1, month := 1 } = f1 at a1 a2 a3 a4 a5 a6 k0 k1 ⊢
  generalize _mod (f1.weekday - 3) 7 = k at k0 k1 ⊢
  obtain ⟨b1, b2, b3, b4⟩ := first_of_year_moved f1 k a2 (by rw [a3, a1]) a4 k0 (by omega)
  generalize fix_date { f1 with day := f1.day + k } = f2 at b1 b2 b3 b4 ⊢
  split_ifs with hc hl
  · exact ⟨by norm_num, by norm_num⟩
  · exact ⟨by norm_num, by norm_num⟩
  · have hle : ¬ date_to_usec_since_zero f2 > date_to_usec_since_zero d := by
      intro hgt
      apply hc
      unfold date_compare
      simp only [hgt, if_true]
    rw [date_to_usec_since_zero_day_of_year f2, date_to_usec_since_zero_day_of_year d,
      b1, a1, b4, a6] at hle
    obtain ⟨w0, w1⟩ := wall_usec_range f2 b2
    obtain ⟨v0, v1⟩ := wall_usec_range d ht
    have hdoy : day_of_year f2 ≤ day_of_year d := by omega
    have hge : f2.day ≤ day_of_year f2 := months_loop_ge f2.year f2.month.toNat f2.month f2.day
    have hup : day_of_year d ≤ 366 := day_of_year_le d.year d.month d.day hm1 hm2 hdlen
    have hnn : 0 ≤ day_of_year d - f2.day := by omega
    rw [Int.tdiv_eq_ediv hnn (by norm_num)]
    constructor <;> omega

/-- C16: ISO week numbers are always in range.  For every date returned by `make_date`,
`1 ≤ iso_week_number d ≤ 53`. -/
theorem iso_week_number_in_range (year month day hour minute second usecond tz_offset : Int) :
    1 ≤ iso_week_number (make_date year month day hour minute second usecond tz_offset) ∧
    iso_week_number (make_date year month day hour minute second usecond tz_offset) ≤ 53 :=
  iso_week_number_of_decoded _ tz_offset

/-! ## Lemmas: writes into the cells -/

theorem poke_length (cells : Cells) (j : Nat) (c : Char) (h : j ≤ cells.length) :
    (poke cells j c).length = max cells.length (j + 1) := by
  unfold poke
  by_cases hj : j < cells.length
  · simp only [hj, if_true, List.length_set]
    omega
  · have : j = cells.length := by omega
    subst this
    simp

theorem poke_take (cells : Cells) (j : Nat) (c : Char) (h : j ≤ cells.length) :
    (poke cells j c).take (j + 1) = cells.take j ++ [some c] := by
  unfold poke
  by_cases hj : j < cells.length
  · simp only [hj, if_true]
    rw [List.set_eq_take_append_cons_drop, if_pos hj]
    have hl : (List.take j cells).length = j := by simp; omega
    rw [List.take_append_eq_append_take, hl]
    simp [List.take_of_length_le, hl]
  · have : j = cells.length := by omega
    subst this
    simp

theorem poke_at_end (cells : Cells) (j : Nat) (c : Char) (h1 : j ≤ cells.length)
    (h2 : cells.length ≤ j + 1) : poke cells j c = cells.take j ++ [some c] := by
  have hl := poke_length cells j c h1
  have ht := poke_take cells j c h1
  rw [List.take_of_length_le (by omega)] at ht
  exact ht

theorem poke_string_spec : ∀ (s : List Char) (cells : Cells) (j : Nat),
    j ≤ cells.length → cells.length ≤ j + s.length →
    poke_string s cells j = cells.take j ++ s.map some
  | [], cells, j, h1, h2 => by
    simp only [poke_string, List.map_nil, List.append_nil]
    rw [List.take_of_length_le (by simpa using h2)]
  | c :: cs, cells, j, h1, h2 => by
    have hl := poke_length cells j c h1
    have ht := poke_take cells j c h1
    simp only [List.length_cons] at h2
    rw [poke_string, poke_string_spec cs (poke cells j c) (j + 1) (by omega) (by omega), ht]
    simp

theorem snprintf_spec (cells : Cells) (j size : Nat) (text : List Char)
    (hs : text.length < size) (h1 : j ≤ cells.length) (h2 : cells.length ≤ j + 1) :
    snprintf cells j size text = (cells.take j ++ text.map some ++ [some NUL], text.length) := by
  have h0 : size ≠ 0 := by omega
  unfold snprintf
  rw [if_neg h0, List.take_of_length_le (by omega),
    poke_string_spec _ cells j h1 (by simp; omega)]
  simp

theorem strcpy_spec (cells : Cells) (j : Nat) (s : List Char)
    (h1 : j ≤ cells.length) (h2 : cells.length ≤ j + 1) :
    strcpy cells j s = cells.take j ++ s.map some ++ [some NUL] := by
  unfold strcpy
  rw [poke_string_spec _ cells j h1 (by simp; omega)]
  simp

/-! ## Lemmas: the Roman encoder with room -/

theorem size_table (k : Nat) (h : k < 10) :
    size.getD k 0 = (table_at huns (k : Int)).length ∧
    size.getD k 0 = (table_at tens (k : Int)).length ∧
    size.getD k 0 = (table_at ones (k : Int)).length := by
  interval_cases k <;> decide

theorem roman_thousands_spec : ∀ (fuel : Nat) (cells : Cells) (pos len val : Nat),
    val / 1000 ≤ fuel → val / 1000 ≤ len → pos ≤ cells.length → cells.length ≤ pos + 1 →
    ∃ cells1, roman_thousands fuel cells pos len val
        = some (cells1, pos + val / 1000, len - val / 1000, val % 1000) ∧
      cells1.take (pos + val / 1000)
        = cells.take pos ++ List.replicate (val / 1000) (some 'M') ∧
      pos + val / 1000 ≤ cells1.length ∧ cells1.length ≤ pos + val / 1000 + 1
  | 0, cells, pos, len, val, hf, hl, h1, h2 => by
    have hk : val / 1000 = 0 := by omega
    have hv : val % 1000 = val := by omega
    refine ⟨cells, ?_, ?_, ?_, ?_⟩
    · simp [roman_thousands, hk, hv]
    · simp [hk]
    · omega
    · omega
  | fuel + 1, cells, pos, len, val, hf, hl, h1, h2 => by
    by_cases hv : val ≥ 1000
    · have hk : (val - 1000) / 1000 = val / 1000 - 1 := by omega
      have hk1 : 1 ≤ val / 1000 := by omega
      have hm : (val - 1000) % 1000 = val % 1000 := by omega
      have hlen : ¬ len < 1 := by omega
      obtain ⟨cells1, e, t, l1, l2⟩ := roman_thousands_spec fuel (poke cells pos 'M') (pos + 1)
        (len - 1) (val - 1000) (by omega) (by omega)
        (by rw [poke_length cells pos 'M' h1]; omega)
        (by rw [poke_length cells pos 'M' h1]; omega)
      refine ⟨cells1, ?_, ?_, ?_, ?_⟩
      · rw [roman_thousands, if_pos hv, if_neg hlen, e, hk, hm]
        have a1 : pos + 1 + (val / 1000 - 1) = pos + val / 1000 := by omega
        have a2 : len - 1 - (val / 1000 - 1) = len - val / 1000 := by omega
        rw [a1, a2]
      · have e1 : pos + val / 1000 = pos + 1 + (val - 1000) / 1000 := by omega
        rw [e1, t, poke_take cells pos 'M' h1, hk]
        have e2 : val / 1000 = (val / 1000 - 1) + 1 := by omega
        conv_rhs => rw [e2, List.replicate_succ]
        simp
      · omega
      · omega
    · have hk : val / 1000 = 0 := by omega
      have hv2 : val % 1000 = val := by omega
      refine ⟨cells, ?_, ?_, ?_, ?_⟩
      · simp [roman_thousands, hv, hk, hv2]
      · simp [hk]
      · omega
      · omega

theorem strcpy_after (P : Cells) (x : Option Char) (s : List Char) (pos : Nat)
    (hpos : pos = P.length) :
    strcpy (P ++ [x]) pos s = P ++ s.map some ++ [some NUL] := by
  subst hpos
  rw [strcpy_spec (P ++ [x]) P.length s (by simp) (by simp)]
  simp

theorem poke_after (P : Cells) (x : Option Char) (c : Char) (pos : Nat)
    (hpos : pos = P.length) : poke (P ++ [x]) pos c = P ++ [some c] := by
  subst hpos
  rw [poke_at_end (P ++ [x]) P.length c (by simp) (by simp)]
  simp

theorem roman_text_length (val : Nat) :
    (roman_text val).length = val / 1000 + size.getD (val % 1000 / 100) 0
      + size.getD (val % 100 / 10) 0 + size.getD (val % 10) 0 := by
  have a := (size_table (val % 1000 / 100) (by omega)).1
  have b := (size_table (val % 100 / 10) (by omega)).2.1
  have c := (size_table (val % 10) (by omega)).2.2
  simp only [roman_text, List.length_append, List.length_replicate]
  omega

/-- With room for the numeral and its terminator, `convert_to_roman` writes the numeral
`roman_text val` and a NUL from index `init` on and returns the numeral's length. -/
theorem convert_to_roman_spec (val : Nat) (cells : Cells) (init len : Nat)
    (h1 : init ≤ cells.length) (h2 : cells.length ≤ init + 1)
    (hroom : (roman_text val).length < len) :
    convert_to_roman val cells init len
      = (cells.take init ++ (roman_text val).map some ++ [some NUL],
         (roman_text val).length) := by
  have hlen := roman_text_length val
  obtain ⟨sa, _, _⟩ := size_table (val % 1000 / 100) (by omega)
  obtain ⟨_, sb, _⟩ := size_table (val % 1000 % 100 / 10) (by omega)
  obtain ⟨_, _, sc⟩ := size_table (val % 1000 % 100 % 10) (by omega)
  have m1 : val % 1000 % 100 = val % 100 := by omega
  have m2 : val % 1000 % 100 % 10 = val % 10 := by omega
  rw [m1] at sb
  rw [m2] at sc
  obtain ⟨cells1, e, t, l1, l2⟩ := roman_thousands_spec (val / 1000) cells init len val
    (le_refl _) (by omega) h1 h2
  have hA : (cells.take init).length = init := by simp; omega
  unfold convert_to_roman
  rw [e]
  have m3 : val % 100 % 10 = val % 10 := by omega
  simp only [m1, m3]
  have c1 : ¬ len - val / 1000 < size.getD (val % 1000 / 100) 0 := by omega
  have c2 : ¬ len - val / 1000 - size.getD (val % 1000 / 100) 0
      < size.getD (val % 100 / 10) 0 := by omega
  have c3 : ¬ len - val / 1000 - size.getD (val % 1000 / 100) 0 - size.getD (val % 100 / 10) 0
      < size.getD (val % 10) 0 := by omega
  have c4 : ¬ len - val / 1000 - size.getD (val % 1000 / 100) 0 - size.getD (val % 100 / 10) 0
      - size.getD (val % 10) 0 < 1 := by omega
  rw [if_neg c1, if_neg c2, if_neg c3, if_neg c4]
  rw [strcpy_spec cells1 _ _ l1 l2, t]
  rw [strcpy_after _ _ _ _ (by
      simp only [List.length_append, List.length_map, List.length_replicate, hA]; omega),
    strcpy_after _ _ _ _ (by
      simp only [List.length_append, List.length_map, List.length_replicate, hA]; omega),
    poke_after _ _ _ _ (by
      simp only [List.length_append, List.length_map, List.length_replicate, hA]; omega)]
  refine Prod.ext ?_ ?_
  · simp only [roman_text, List.map_append, List.map_replicate, List.append_assoc]
  · simp only
    omega

/-! ## Lemmas: one directive with room -/

theorem size_sub_eq (len j k : Nat) (h1 : j + k ≤ len) (h2 : len < 18446744073709551616) :
    size_sub len j k = len - j - k := by
  unfold size_sub
  omega

theorem holds_text_write (cells : Cells) (j : Nat) (text t : List Char)
    (h : holds_text cells j text) :
    holds_text (cells.take j ++ t.map some ++ [some NUL]) (j + t.length) (text ++ t) := by
  obtain ⟨e, ht, l1, l2⟩ := h
  have hA : (cells.take j).length = j := by simp; omega
  refine ⟨by simp [e], ?_, by simp [hA], by simp [hA]; omega⟩
  rw [ht, ← List.map_append]
  have hl : ((text ++ t).map some).length = j + t.length := by simp [e]
  exact List.take_left' hl

theorem holds_text_poke (cells : Cells) (j : Nat) (text : List Char) (c : Char)
    (h : holds_text cells j text) : holds_text (poke cells j c) (j + 1) (text ++ [c]) := by
  obtain ⟨e, ht, l1, l2⟩ := h
  have hA : (cells.take j).length = j := by simp; omega
  rw [poke_at_end cells j c l1 l2]
  refine ⟨by simp [e], ?_, by simp [hA], by simp [hA]⟩
  rw [List.take_of_length_le (by simp [hA]), ht]
  simp

theorem put_holds (cells : Cells) (j len : Nat) (text : List Char) (num : Int) (opt : Char)
    (padd : Int) (h : holds_text cells j text)
    (hroom : j + (place_n_text num opt padd).length + 2 ≤ len)
    (hlen : len < 18446744073709551616) :
    holds_text (place_n_in_s cells j (size_sub len j 1) num opt padd).1
      (j + (place_n_in_s cells j (size_sub len j 1) num opt padd).2)
      (text ++ place_n_text num opt padd) := by
  rw [size_sub_eq len j 1 (by omega) hlen]
  unfold place_n_in_s
  rw [snprintf_spec cells j _ _ (by omega) h.2.2.1 h.2.2.2]
  exact holds_text_write cells j text _ h

theorem puts_holds (cells : Cells) (j len : Nat) (text : List Char) (str : List Char)
    (opt : Char) (padd : Int) (h : holds_text cells j text)
    (hroom : j + (place_s_text str opt padd).length + 2 ≤ len)
    (hlen : len < 18446744073709551616) :
    holds_text (place_s_in_s cells j (size_sub len j 1) str opt padd).1
      (j + (place_s_in_s cells j (size_sub len j 1) str opt padd).2)
      (text ++ place_s_text str opt padd) := by
  rw [size_sub_eq len j 1 (by omega) hlen]
  unfold place_s_in_s
  rw [snprintf_spec cells j _ _ (by omega) h.2.2.1 h.2.2.2]
  exact holds_text_write cells j text _ h

theorem roman_holds (cells : Cells) (j len k : Nat) (text : List Char) (val : Nat)
    (h : holds_text cells j text) (hk : k ≤ 1)
    (hroom : j + (roman_text val).length + 2 ≤ len)
    (hlen : len < 18446744073709551616) :
    holds_text (convert_to_roman val cells j (size_sub len j k)).1
      (j + (convert_to_roman val cells j (size_sub len j k)).2)
      (text ++ roman_text val) := by
  rw [size_sub_eq len j k (by omega) hlen]
  rw [convert_to_roman_spec val cells j _ h.2.2.1 h.2.2.2 (by omega)]
  exact holds_text_write cells j text _ h

/-- With room for its text and two more cells, one directive of `dnprintf` appends its
text `directive_text d c opt` to what the cells hold. -/
theorem directive_spec (d : date_t) (len : Nat) (c opt : Char) (cells : Cells) (j : Nat)
    (text : List Char) (h : holds_text cells j text)
    (hroom : j + (directive_text d c opt).length + 2 ≤ len)
    (hlen : len < 18446744073709551616) :
    holds_text (directive d len c opt cells j).1 (directive d len c opt cells j).2
      (text ++ directive_text d c opt) := by
  unfold directive
  unfold directive_text at hroom ⊢
  cases hc : switch_case d c opt with
  | put num padd =>
    rw [hc] at hroom
    exact put_holds cells j len text num opt padd h hroom hlen
  | puts str padd =>
    rw [hc] at hroom
    exact puts_holds cells j len text str opt padd h hroom hlen
  | roman val spare =>
    rw [hc] at hroom
    exact roman_holds cells j len _ text val h (by split <;> omega) hroom hlen
  | percent => exact holds_text_poke cells j text _ h
  | skip =>
    simp only [List.append_nil]
    exact h

/-! ## Lemmas: the template walk with room -/

theorem render_loop_length_ge (d : date_t) (format : List Char) :
    ∀ (fuel i : Nat) (text : List Char),
      text.length ≤ (render_loop d format fuel i text).length
  | 0, i, text => by simp [render_loop]
  | fuel + 1, i, text => by
    have ih := render_loop_length_ge d format fuel
    rw [render_loop]
    simp only
    split_ifs
    · have := ih (i + 1) (text ++ [format.getD i NUL])
      simp only [List.length_append] at this
      omega
    · exact le_refl _
    · exact le_refl _
    · have := ih (i + 1 + 1 + 1)
        (text ++ directive_text d (format.getD (i + 1 + 1) NUL) (format.getD (i + 1) NUL))
      simp only [List.length_append] at this
      omega
    · have := ih (i + 1 + 1) (text ++ directive_text d (format.getD (i + 1) NUL) NUL)
      simp only [List.length_append] at this
      omega
    · exact le_refl _

theorem dnprintf_loop_spec (d : date_t) (len : Nat) (format : List Char)
    (hlen : len < 18446744073709551616) :
    ∀ (fuel i j : Nat) (cells : Cells) (text : List Char),
      holds_text cells j text →
      (render_loop d format fuel i text).length + 2 ≤ len →
      holds_text (dnprintf_loop d len format fuel i j cells).1
        (dnprintf_loop d len format fuel i j cells).2 (render_loop d format fuel i text)
  | 0, i, j, cells, text, h, _ => by
    simpa [dnprintf_loop, render_loop] using h
  | fuel + 1, i, j, cells, text, h, hroom => by
    have ih := dnprintf_loop_spec d len format hlen fuel
    have ge := render_loop_length_ge d format fuel
    have hj : j = text.length := h.1
    rw [render_loop] at hroom ⊢
    rw [dnprintf_loop]
    simp only at hroom ⊢
    split_ifs at hroom ⊢
    · exact ih (i + 1) (j + 1) _ _ (holds_text_poke cells j text _ h) hroom
    · exact h
    · exact h
    · have g := ge (i + 1 + 1 + 1)
        (text ++ directive_text d (format.getD (i + 1 + 1) NUL) (format.getD (i + 1) NUL))
      simp only [List.length_append] at g
      exact ih _ _ _ _ (directive_spec d len _ _ cells j text h (by omega) hlen) hroom
    · have g := ge (i + 1 + 1) (text ++ directive_text d (format.getD (i + 1) NUL) NUL)
      simp only [List.length_append] at g
      exact ih _ _ _ _ (directive_spec d len _ _ cells j text h (by omega) hlen) hroom
    · exact h

/-- With room for the whole text and two more cells, `dnprintf` leaves the text
`render d format` and its NUL terminator in the buffer, and nothing else. -/
theorem dnprintf_spec (d : date_t) (len : Nat) (format : List Char)
    (hroom : (render d format).length + 2 ≤ len) (hlen : len < 18446744073709551616) :
    dnprintf d len format = (render d format).map some ++ [some NUL] := by
  have h0 : holds_text [] 0 [] := ⟨rfl, rfl, le_refl _, by simp⟩
  obtain ⟨e, ht, l1, l2⟩ :=
    dnprintf_loop_spec d len format hlen format.length 0 0 [] [] h0 hroom
  unfold dnprintf
  simp only
  rw [poke_at_end _ _ NUL l1 l2, ht]
  rfl

/-! ## Lemmas: zero-padded decimal numbers -/

theorem zero_padded_length (w n : Nat) : (zero_padded w n).length = w := by
  simp [zero_padded]

theorem zero_padded_succ (w n : Nat) :
    zero_padded (w + 1) n = zero_padded w (n / 10) ++ [Nat.digitChar (n % 10)] := by
  unfold zero_padded
  rw [List.range_succ_eq_map, List.reverse_cons, List.map_append, List.map_reverse,
    List.map_map, List.map_reverse]
  congr 2
  · apply List.map_congr_left
    intro k _
    simp only [Function.comp]
    rw [Nat.div_div_eq_div_mul, pow_succ']
  · simp

theorem zero_padded_zero (w : Nat) : zero_padded w 0 = List.replicate w '0' := by
  induction w with
  | zero => rfl
  | succ w ih =>
    rw [zero_padded_succ, ih]
    simp only [Nat.zero_div, Nat.zero_mod]
    rw [List.replicate_succ']
    rfl

theorem decimal_digits_padded : ∀ (w fuel n : Nat), w ≤ fuel → n < 10 ^ (w + 1) →
    (decimal_digits (fuel + 1) n).length ≤ w + 1 ∧
    List.replicate (w + 1 - (decimal_digits (fuel + 1) n).length) '0'
      ++ decimal_digits (fuel + 1) n = zero_padded (w + 1) n
  | 0, fuel, n, _, hn => by
    have h : n < 10 := by simpa using hn
    have h1 : n % 10 = n := by omega
    rw [zero_padded_succ]
    simp [decimal_digits, h, zero_padded, h1]
  | w + 1, fuel, n, hf, hn => by
    obtain ⟨fuel, rfl⟩ : ∃ f, fuel = f + 1 := ⟨fuel - 1, by omega⟩
    rw [zero_padded_succ]
    by_cases h : n < 10
    · have h0 : n / 10 = 0 := by omega
      have h1 : n % 10 = n := by omega
      simp only [decimal_digits, h, if_true, List.length_singleton, h0, h1, zero_padded_zero]
      exact ⟨by omega, by simp⟩
    · have hq : n / 10 < 10 ^ (w + 1) := by
        rw [pow_succ] at hn
        omega
      obtain ⟨a, b⟩ := decimal_digits_padded w fuel (n / 10) (by omega) hq
      rw [decimal_digits, if_neg h, ← b]
      simp only [List.length_append, List.length_singleton]
      refine ⟨by omega, ?_⟩
      have e : w + 1 + 1 - ((decimal_digits (fuel + 1) (n / 10)).length + 1)
          = w + 1 - (decimal_digits (fuel + 1) (n / 10)).length := by omega
      rw [e]
      simp

/-- The text of `PUT(num, '0', w)` for `0 ≤ num < 10 ^ w` with `1 ≤ w ≤ 20` is `num` in
exactly `w` decimal places. -/
theorem place_n_text_zero_flag (num : Int) (w : Nat) (h0 : 0 ≤ num) (h1 : num < 10 ^ w)
    (hw1 : 1 ≤ w) (hw2 : w ≤ 20) :
    place_n_text num '0' (w : Int) = zero_padded w num.toNat := by
  obtain ⟨n, rfl⟩ := Int.eq_ofNat_of_zero_le h0
  obtain ⟨v, rfl⟩ : ∃ v, w = v + 1 := ⟨w - 1, by omega⟩
  have hn : n < 10 ^ (v + 1) := by exact_mod_cast h1
  obtain ⟨a, b⟩ := decimal_digits_padded v 19 n (by omega) hn
  simp only [Nat.reduceAdd] at a b
  have hneg : ¬ ((n : Int) < 0) := by omega
  have c1 : ¬ (('0' : Char) = NUL ∨ ('0' : Char) = '^') := by decide
  have c2 : ¬ (('0' : Char) = '+') := by decide
  have c3 : ¬ (('0' : Char) = ' ') := by decide
  simp only [place_n_text, hneg, if_false, c1, format_lld, c2, c3, if_true, decimal,
    Int.natAbs_ofNat, Int.toNat_ofNat, List.nil_append, List.length_nil, Nat.zero_add]
  rw [← b]
  congr 2
  omega

/-! ## Claims about the formatter -/

theorem render_iso_8601 (d : date_t) :
    render d F_ISO_8601_T
      = place_n_text d.year '0' 4 ++ ['-'] ++ place_n_text d.month '0' 2 ++ ['-']
        ++ place_n_text d.day '0' 2 ++ ['T'] ++ place_n_text d.hour '0' 2 ++ [':']
        ++ place_n_text d.minute '0' 2 ++ [':'] ++ place_n_text d.second '0' 2 ++ ['.']
        ++ place_n_text d.usecond '0' 6
        ++ place_s_text (table_at D_PLUSMINUS (c_bool (d.tz_offset < 0))) NUL 0
        ++ place_n_text (|d.tz_offset|.tdiv 60) '0' 2 ++ [':']
        ++ place_n_text (|d.tz_offset|.tmod 60) '0' 2 := by
  rfl

theorem month_lengths_le (leap : Bool) (i : Int) : month_lengths leap i ≤ 31 := by
  unfold month_lengths
  split_ifs with h
  · obtain ⟨n, rfl⟩ := Int.eq_ofNat_of_zero_le h
    simp only [Int.toNat_ofNat]
    by_cases hn : n < 12
    · interval_cases n <;> cases leap <;> decide
    · have hl : (month_lengths_row leap).length ≤ n := by
        cases leap <;> simp [month_lengths_row] <;> omega
      rw [List.getD_eq_default _ _ hl]
      norm_num
  · norm_num

theorem place_n_text_zero_2 (num : Int) (h0 : 0 ≤ num) (h1 : num < 100) :
    place_n_text num '0' 2 = zero_padded 2 num.toNat := by
  have h := place_n_text_zero_flag num 2 h0 (by norm_num; omega) (by norm_num) (by norm_num)
  exact_mod_cast h

theorem place_n_text_zero_4 (num : Int) (h0 : 0 ≤ num) (h1 : num < 10000) :
    place_n_text num '0' 4 = zero_padded 4 num.toNat := by
  have h := place_n_text_zero_flag num 4 h0 (by norm_num; omega) (by norm_num) (by norm_num)
  exact_mod_cast h

theorem place_n_text_zero_6 (num : Int) (h0 : 0 ≤ num) (h1 : num < 1000000) :
    place_n_text num '0' 6 = zero_padded 6 num.toNat := by
  have h := place_n_text_zero_flag num 6 h0 (by norm_num; omega) (by norm_num) (by norm_num)
  exact_mod_cast h

/-- C17: the ISO-8601 template renders fixed-width zero-padded fields.  For every in-range
date with year in 0..9999 and offset magnitude below 6000 minutes, and every buffer of at
least 34 bytes, `dnprintf` with the template `F_ISO_8601_T` leaves in the buffer the 32
characters YYYY-MM-DDTHH:MM:SS.uuuuuu, the sign of the offset and its hours and minutes in
two places each, followed by the NUL terminator. -/
theorem iso_8601_template_renders_fixed_width (d : date_t) (len : Nat)
    (hy : 0 ≤ d.year ∧ d.year ≤ 9999) (hm : 1 ≤ d.month ∧ d.month ≤ 12)
    (hd : 1 ≤ d.day ∧ d.day ≤ month_lengths (is_leap_year d.year) (d.month - 1))
    (hh : 0 ≤ d.hour ∧ d.hour ≤ 23) (hmi : 0 ≤ d.minute ∧ d.minute ≤ 59)
    (hs : 0 ≤ d.second ∧ d.second ≤ 59) (hu : 0 ≤ d.usecond ∧ d.usecond ≤ 999999)
    (htz : -6000 < d.tz_offset ∧ d.tz_offset < 6000)
    (hlen : 34 ≤ len ∧ len < 18446744073709551616) :
    dnprintf d len F_ISO_8601_T
      = (zero_padded 4 d.year.toNat ++ ['-'] ++ zero_padded 2 d.month.toNat ++ ['-']
          ++ zero_padded 2 d.day.toNat ++ ['T'] ++ zero_padded 2 d.hour.toNat ++ [':']
          ++ zero_padded 2 d.minute.toNat ++ [':'] ++ zero_padded 2 d.second.toNat ++ ['.']
          ++ zero_padded 6 d.usecond.toNat ++ [if d.tz_offset < 0 then '-' else '+']
          ++ zero_padded 2 (|d.tz_offset| / 60).toNat ++ [':']
          ++ zero_padded 2 (|d.tz_offset| % 60).toNat).map some ++ [some NUL] ∧
    (zero_padded 4 d.year.toNat ++ ['-'] ++ zero_padded 2 d.month.toNat ++ ['-']
          ++ zero_padded 2 d.day.toNat ++ ['T'] ++ zero_padded 2 d.hour.toNat ++ [':']
          ++ zero_padded 2 d.minute.toNat ++ [':'] ++ zero_padded 2 d.second.toNat ++ ['.']
          ++ zero_padded 6 d.usecond.toNat ++ [if d.tz_offset < 0 then '-' else '+']
          ++ zero_padded 2 (|d.tz_offset| / 60).toNat ++ [':']
          ++ zero_padded 2 (|d.tz_offset| % 60).toNat).length = 32 := by
  have hday := month_lengths_le (is_leap_year d.year) (d.month - 1)
  have habs : 0 ≤ |d.tz_offset| ∧ |d.tz_offset| < 6000 := ⟨abs_nonneg _, abs_lt.mpr htz⟩
  have ez : |d.tz_offset|.tdiv 60 = |d.tz_offset| / 60 :=
    Int.tdiv_eq_ediv habs.1 (by norm_num)
  have em : |d.tz_offset|.tmod 60 = |d.tz_offset| % 60 :=
    Int.tmod_eq_emod habs.1 (by norm_num)
  have r := render_iso_8601 d
  rw [ez, em, place_n_text_zero_4 d.year hy.1 (by omega),
    place_n_text_zero_2 d.month (by omega) (by omega),
    place_n_text_zero_2 d.day (by omega) (by omega),
    place_n_text_zero_2 d.hour hh.1 (by omega),
    place_n_text_zero_2 d.minute hmi.1 (by omega),
    place_n_text_zero_2 d.second hs.1 (by omega),
    place_n_text_zero_6 d.usecond hu.1 (by omega),
    place_n_text_zero_2 (|d.tz_offset| / 60) (by omega) (by omega),
    place_n_text_zero_2 (|d.tz_offset| % 60) (by omega) (by omega)] at r
  have hsign : place_s_text (table_at D_PLUSMINUS (c_bool (decide (d.tz_offset < 0)))) NUL 0
      = [if d.tz_offset < 0 then '-' else '+'] := by
    by_cases hneg : d.tz_offset < 0
    · simp only [hneg, decide_True, if_true]
      decide
    · simp only [hneg, decide_False, if_false]
      decide
  rw [hsign] at r
  have hl : (render d F_ISO_8601_T).length = 32 := by
    rw [r]
    simp only [List.length_append, zero_padded_length, List.length_singleton]
  refine ⟨?_, ?_⟩
  · rw [dnprintf_spec d len F_ISO_8601_T (by omega) hlen.2, r]
  · rw [← r]
    exact hl

set_option maxRecDepth 100000 in
theorem iso_8601_template_renders_fixed_width_witness :
    (0 ≤ iso_example_date.year ∧ iso_example_date.year ≤ 9999) ∧
    (1 ≤ iso_example_date.month ∧ iso_example_date.month ≤ 12) ∧
    (1 ≤ iso_example_date.day ∧ iso_example_date.day
      ≤ month_lengths (is_leap_year iso_example_date.year) (iso_example_date.month - 1)) ∧
    (0 ≤ iso_example_date.hour ∧ iso_example_date.hour ≤ 23) ∧
    (0 ≤ iso_example_date.minute ∧ iso_example_date.minute ≤ 59) ∧
    (0 ≤ iso_example_date.second ∧ iso_example_date.second ≤ 59) ∧
    (0 ≤ iso_example_date.usecond ∧ iso_example_date.usecond ≤ 999999) ∧
    (-6000 < iso_example_date.tz_offset ∧ iso_example_date.tz_offset < 6000) ∧
    ((34 : Nat) ≤ 100 ∧ (100 : Nat) < 18446744073709551616) ∧
    dnprintf iso_example_date 100 F_ISO_8601_T
      = "2015-06-11T21:53:12.543294+02:00".toList.map some ++ [some NUL] :=
  ⟨by decide, by decide, by decide, by decide, by decide, by decide, by decide, by decide,
    by decide,
    (iso_8601_template_renders_fixed_width iso_example_date 100 (by decide) (by decide)
      (by decide) (by decide) (by decide) (by decide) (by decide) (by decide)
      (by decide)).1.trans (by decide)⟩

theorem render_caesar :
    render caesars_assasitation "%A %d, %R %L".toList = "March 15, XLIV BCE".toList := by
  decide

/-- C18: the BCE date of the demonstration program is normalized and formatted with month
name, unpadded day, Roman year without year zero and era label.  `make_date` keeps year
-43, month 3 and day 15, the year without a year zero is 44, and for every buffer of at
least 20 bytes `dnprintf` with the template `%A %d, %R %L` leaves exactly
`March 15, XLIV BCE` and the NUL terminator in the buffer. -/
theorem bce_date_renders_roman_year_and_era (len : Nat)
    (hlen : 20 ≤ len ∧ len < 18446744073709551616) :
    dnprintf (make_date (-43) 3 15 21 0 0 0 120) len "%A %d, %R %L".toList
      = "March 15, XLIV BCE".toList.map some ++ [some NUL] ∧
    (make_date (-43) 3 15 21 0 0 0 120).year = -43 ∧
    (make_date (-43) 3 15 21 0 0 0 120).month = 3 ∧
    (make_date (-43) 3 15 21 0 0 0 120).day = 15 ∧
    year_no_zero (make_date (-43) 3 15 21 0 0 0 120) = 44 := by
  refine ⟨?_, by decide, by decide, by decide, by decide⟩
  have r := render_caesar
  have hl : (render caesars_assasitation "%A %d, %R %L".toList).length = 18 := by
    rw [r]
    decide
  have h := dnprintf_spec caesars_assasitation len "%A %d, %R %L".toList (by omega) hlen.2
  rw [r] at h
  exact h

theorem bce_date_renders_roman_year_and_era_witness :
    ((20 : Nat) ≤ 100 ∧ (100 : Nat) < 18446744073709551616) ∧
    dnprintf (make_date (-43) 3 15 21 0 0 0 120) 100 "%A %d, %R %L".toList
      = "March 15, XLIV BCE".toList.map some ++ [some NUL] :=
  ⟨by decide, (bce_date_renders_roman_year_and_era 100 (by decide)).1⟩

/-- C19: the `%s` directive does not print the seconds since the UNIX epoch: for the epoch
date `make_date 1970 1 1 0 0 0 0 0`, whose `date_to_time` is 0, `dnprintf` with the
template `%s` and a buffer of 100 bytes leaves `62167132800`, the whole seconds of
`date_to_usec_since_zero`. -/
theorem seconds_directive_counts_from_year_zero :
    dnprintf (make_date 1970 1 1 0 0 0 0 0) 100 "%s".toList
      = "62167132800".toList.map some ++ [some NUL] ∧
    date_to_time (make_date 1970 1 1 0 0 0 0 0) = 0 ∧
    (date_to_usec_since_zero (make_date 1970 1 1 0 0 0 0 0)).tdiv 1000000 = 62167132800 := by
  decide

/-- C20: the string writers write past the capacity they are given: with capacity 1,
`dnprintf` with the template `ab` writes `a`, `b` and NUL at indices 0, 1 and 2; and with
capacity 1, `convert_to_roman 100` writes `C` at index 0 and NUL at index 1. -/
theorem string_writers_exceed_capacity :
    dnprintf (make_date 1970 1 1 0 0 0 0 0) 1 "ab".toList
      = [some 'a', some 'b', some NUL] ∧
    (convert_to_roman 100 [] 0 1).1 = [some 'C', some NUL] := by
  decide

/-! ## Claims about the Roman encoder -/

theorem repeat_text_singleton (n : Nat) (c : Char) :
    repeat_text n [c] = List.replicate n c := by
  induction n with
  | zero => rfl
  | succ n ih =>
    rw [repeat_text, ih, List.replicate_succ]
    rfl

set_option maxRecDepth 1000000 in
theorem tables_are_greedy_below_1000 : all_from tables_are_greedy 1000 0 = true := by
  decide!

theorem roman_text_eq_greedy (val : Nat) : roman_text val = greedy_roman val := by
  have h := all_from_spec tables_are_greedy 1000 0 tables_are_greedy_below_1000 (val % 1000)
    (by omega) (by omega)
  simp only [tables_are_greedy, decide_eq_true_eq] at h
  have m1 : val % 1000 % 100 = val % 100 := by omega
  have m2 : val % 1000 % 10 = val % 10 := by omega
  rw [m1, m2] at h
  have e : greedy_roman val
      = repeat_text (val / 1000) ['M'] ++ greedy_over roman_symbols.tail (val % 1000) := rfl
  rw [e, h, repeat_text_singleton]
  simp only [roman_text, List.append_assoc]

/-- With room for the greedy numeral and its terminator, `convert_to_roman` on a buffer of
which nothing has been written leaves the numeral and a NUL in it and returns the
numeral's length, for every `val`. -/
theorem convert_to_roman_greedy (val len : Nat) (hlen : (greedy_roman val).length < len) :
    convert_to_roman val [] 0 len
      = ((greedy_roman val).map some ++ [some NUL], (greedy_roman val).length) := by
  rw [← roman_text_eq_greedy] at hlen ⊢
  rw [convert_to_roman_spec val [] 0 len (by simp) (by simp) hlen]
  simp

/-- C21: the Roman encoder produces the canonical classical numeral.  For every `val` in
0..3999 and every `len` greater than the length of the greedy expansion of `val` over
M, CM, D, CD, C, XC, L, XL, X, IX, V, IV, I, `convert_to_roman val` leaves that expansion
followed by NUL in the buffer and returns its length; the expansion of 0 is empty. -/
theorem roman_encoder_writes_greedy_numeral (val len : Nat) (hval : val ≤ 3999)
    (hlen : (greedy_roman val).length < len) :
    convert_to_roman val [] 0 len
      = ((greedy_roman val).map some ++ [some NUL], (greedy_roman val).length) ∧
    greedy_roman 0 = [] := by
  have _ := hval
  exact ⟨convert_to_roman_greedy val len hlen, by decide⟩

theorem roman_encoder_writes_greedy_numeral_witness :
    (1994 : Nat) ≤ 3999 ∧ (greedy_roman 1994).length < 8 ∧
    greedy_roman 1994 = "MCMXCIV".toList ∧
    convert_to_roman 1994 [] 0 8
      = ((greedy_roman 1994).map some ++ [some NUL], (greedy_roman 1994).length) :=
  ⟨by decide, by decide, by decide,
    (roman_encoder_writes_greedy_numeral 1994 8 (by decide) (by decide)).1⟩

theorem roman_thousands_state : ∀ (fuel : Nat) (cells : Cells) (pos len val : Nat),
    val / 1000 ≤ fuel →
    (len < val / 1000 → roman_thousands fuel cells pos len val = none) ∧
    (val / 1000 ≤ len → ∃ cells1, roman_thousands fuel cells pos len val
      = some (cells1, pos + val / 1000, len - val / 1000, val % 1000))
  | 0, cells, pos, len, val, hf => by
    have hk : val / 1000 = 0 := by omega
    have hv : val % 1000 = val := by omega
    refine ⟨fun h => by omega, fun _ => ⟨cells, ?_⟩⟩
    simp [roman_thousands, hk, hv]
  | fuel + 1, cells, pos, len, val, hf => by
    by_cases hv : val ≥ 1000
    · have hk : (val - 1000) / 1000 = val / 1000 - 1 := by omega
      have hk1 : 1 ≤ val / 1000 := by omega
      have hm : (val - 1000) % 1000 = val % 1000 := by omega
      rw [roman_thousands, if_pos hv]
      by_cases hl : len < 1
      · rw [if_pos hl]
        exact ⟨fun _ => rfl, fun h => by omega⟩
      · rw [if_neg hl]
        obtain ⟨a, b⟩ := roman_thousands_state fuel (poke cells pos 'M') (pos + 1) (len - 1)
          (val - 1000) (by omega)
        refine ⟨fun h => a (by omega), fun h => ?_⟩
        obtain ⟨cells1, e⟩ := b (by omega)
        refine ⟨cells1, ?_⟩
        have a1 : pos + 1 + (val / 1000 - 1) = pos + val / 1000 := by omega
        have a2 : len - 1 - (val / 1000 - 1) = len - val / 1000 := by omega
        rw [e, hk, hm, a1, a2]
    · have hk : val / 1000 = 0 := by omega
      have hv2 : val % 1000 = val := by omega
      refine ⟨fun h => by omega, fun _ => ⟨cells, ?_⟩⟩
      simp [roman_thousands, hv, hk, hv2]

/-- Without room for the numeral and its terminator `convert_to_roman` returns 0, for
every `val`, whatever the buffer holds. -/
theorem convert_to_roman_without_room (val : Nat) (cells : Cells) (init len : Nat)
    (hlen : len ≤ (roman_text val).length) :
    (convert_to_roman val cells init len).2 = 0 := by
  rw [roman_text_length] at hlen
  obtain ⟨a, b⟩ := roman_thousands_state (val / 1000) cells init len val (le_refl _)
  unfold convert_to_roman
  by_cases hk : len < val / 1000
  · rw [a hk]
  · obtain ⟨cells1, e⟩ := b (by omega)
    rw [e]
    have m1 : val % 1000 % 100 = val % 100 := by omega
    have m3 : val % 100 % 10 = val % 10 := by omega
    simp only [m1, m3]
    split_ifs <;> first | rfl | (simp only; omega)

/-- C22: the Roman encoder reports insufficient capacity by returning 0.  For every
`val ≥ 1` and every `len` that is at most the length of the Roman numeral of `val` (its
greedy expansion), `convert_to_roman val` returns 0, whatever the buffer holds. -/
theorem roman_encoder_returns_zero_without_room (val : Nat) (cells : Cells) (init len : Nat)
    (hval : 1 ≤ val) (hlen : len ≤ (greedy_roman val).length) :
    (convert_to_roman val cells init len).2 = 0 := by
  have _ := hval
  rw [← roman_text_eq_greedy] at hlen
  exact convert_to_roman_without_room val cells init len hlen

theorem roman_encoder_returns_zero_without_room_witness :
    (1 : Nat) ≤ 1994 ∧ 7 ≤ (greedy_roman 1994).length ∧
    (convert_to_roman 1994 [] 0 7).2 = 0 :=
  ⟨by decide, by decide, roman_encoder_returns_zero_without_room 1994 [] 0 7 (by decide)
    (by decide)⟩

/-! ## Claims about the demonstration dates and the POSIX seconds bridge -/

/-- C23, as stated, fails: the difference of `make_date(1941,12,7,7,48,0,0,-630)` and
`make_date(1941,12,7,7,48,0,0,0)` is not the zero span. -/
theorem pearl_harbor_difference_is_not_zero :
    difference (make_date 1941 12 7 7 48 0 0 (-630)) (make_date 1941 12 7 7 48 0 0 0)
      ≠ { weeks := 0, days := 0, hours := 0, minutes := 0, seconds := 0, useconds := 0 } := by
  decide

/-- C23, amended: the two dates are the same wall-clock reading at offsets 630 minutes
apart, and their difference is minus 10 hours 30 minutes: weeks 0, days 0, hours -10,
minutes -30, seconds 0, useconds 0. -/
theorem pearl_harbor_difference_is_offset_gap :
    difference (make_date 1941 12 7 7 48 0 0 (-630)) (make_date 1941 12 7 7 48 0 0 0)
      = { weeks := 0, days := 0, hours := -10, minutes := -30, seconds := 0,
          useconds := 0 } := by
  decide

/-- C24: `time_to_date` misses a 1 January before 1970.  For t = -31536000
(1969-01-01 00:00:00) the day count is -365; the loop `while (days <= 0)` goes on past
1969 to year 1968 with 366 days left, so the result has year 1968, and after the twelve
rounds of the month loop that stay inside the table the loop is at month 13 with 0 days
left and its next test reads `month_lengths[1][12]`. -/
theorem time_to_date_overshoots_first_of_january :
    _div (-31536000) 86400 = -365 ∧ years_down 366 (-365) 1970 = (366, 1968) ∧
    (time_to_date (-31536000)).year = 1968 ∧ month_walk 1968 12 366 1 = (0, 13) := by
  decide

end Datelib
